import Mathlib

/-!
Verification development for the next-whois-rade WHOIS/RDAP resolution engine.

The TypeScript/JavaScript sources are shallowly embedded: strings are lists
of characters (`Str`), JS objects become Lean structures with `Option` fields
(`none` models an absent/`undefined` property), fallible operations return
`Except`, and network I/O is abstracted as an explicit parameter holding the
outcome of the wire call.  All definitions are executable.
-/

set_option maxHeartbeats 1000000
set_option maxRecDepth 100000

/-- Characters of a JavaScript string. -/
abbrev Str := List Char

namespace JS

/-- JS whitespace as far as the engine's inputs use it (space, tab, CR, LF,
vertical tab, form feed); mirrors the character class `\s` on ASCII text. -/
def isWs (c : Char) : Bool :=
  c = ' ' || c = '\t' || c = '\n' || c = '\r' || c = '\x0b' || c = '\x0c'

/-- `String.prototype.toLowerCase` on the ASCII range (the engine only
compares ASCII keywords case-insensitively). -/
def lower (s : Str) : Str := s.map Char.toLower

/-- `String.prototype.trim`. -/
def trim (s : Str) : Str :=
  ((s.dropWhile isWs).reverse.dropWhile isWs).reverse

/-- `hay.includes(needle)`. -/
def includes (hay needle : Str) : Bool := decide (needle <:+: hay)

/-- `s.endsWith(suffix)`. -/
def endsWith (s suffix : Str) : Bool := decide (suffix <:+ s)

/-- `s.startsWith(p)`. -/
def startsWith (s p : Str) : Bool := decide (p <+: s)

/-- `s.split(sep)` for a single-character separator: `"".split(c)` is `[""]`. -/
def splitOnChar (sep : Char) : Str → List Str
  | [] => [[]]
  | c :: rest =>
    let r := splitOnChar sep rest
    if c = sep then [] :: r
    else
      match r with
      | [] => [[c]]
      | h :: t => (c :: h) :: t

/-- `s.indexOf(c)` returning `none` for `-1`. -/
def indexOfCh (c : Char) : Str → Option Nat
  | [] => none
  | x :: xs => if x = c then some 0 else (indexOfCh c xs).map (· + 1)

/-- `arr.join(sep)`. -/
def joinSep (sep : Str) : List Str → Str
  | [] => []
  | [x] => x
  | x :: rest => x ++ sep ++ joinSep sep rest

/-- First token of `s.split(/\s+/)` (the inputs it is applied to are trimmed,
so the token is the maximal leading run of non-whitespace). -/
def firstTokenWs (s : Str) : Str := s.takeWhile (fun c => !isWs c)

/-- `s.split(' ')[0]`. -/
def firstTokenSpace (s : Str) : Str := s.takeWhile (fun c => c ≠ ' ')

/-- Decimal rendering of a number interpolated into a JS template string. -/
def natToStr (n : Nat) : Str := (Nat.repr n).toList

end JS

namespace WS

/-- `WhoisData` from `src/lib/types.ts`: the canonical structured record.
`none` models an absent/`undefined` property. -/
structure WhoisData where
  domainName : Option Str := none
  registrar : Option Str := none
  registrarUrl : Option Str := none
  registrarIanaId : Option Str := none
  creationDate : Option Str := none
  updatedDate : Option Str := none
  expirationDate : Option Str := none
  registrantName : Option Str := none
  registrantOrganization : Option Str := none
  registrantStreet : Option Str := none
  registrantCity : Option Str := none
  registrantState : Option Str := none
  registrantPostalCode : Option Str := none
  registrantCountry : Option Str := none
  registrantEmail : Option Str := none
  registrantPhone : Option Str := none
  adminName : Option Str := none
  adminOrganization : Option Str := none
  adminEmail : Option Str := none
  adminPhone : Option Str := none
  techName : Option Str := none
  techOrganization : Option Str := none
  techEmail : Option Str := none
  techPhone : Option Str := none
  nameServers : Option (List Str) := none
  dnssec : Option Str := none
  status : Option (List Str) := none
  rawData : Option Str := none
  deriving DecidableEq, Repr, Inhabited

/-- `ProviderResponse` from `src/lib/types.ts`. -/
structure ProviderResponse where
  provider : Str
  success : Bool
  data : Option WhoisData := none
  error : Option Str := none
  responseTime : Nat := 0
  deriving DecidableEq, Repr, Inhabited

/-- One step of the generic `Object.entries` merge loop in `mergeWhoisData`
(`src/lib/whois-service.ts`), specialised to one scalar field: a defined,
non-empty, non-null incoming value is written only when the field is still
absent, `undefined` or the empty string. -/
def mergeScalar (m d : Option Str) : Option Str :=
  match d with
  | some v => if v ≠ [] ∧ (m = none ∨ m = some []) then some v else m
  | none => m

/-- The same generic loop step on an array-valued field: any defined array
(`[] !== ''` holds in JS) is written when the field is still absent. -/
def mergeArrayAssign (m d : Option (List Str)) : Option (List Str) :=
  match d with
  | some l => if m = none then some l else m
  | none => m

/-- `Array.from(new Set(list))`: deduplication keeping first occurrences. -/
def dedupFirst (l : List Str) : List Str :=
  l.foldl (fun acc x => if x ∈ acc then acc else acc ++ [x]) []

/-- The "special handling for arrays" step of `mergeWhoisData`:
`merged.f = Array.from(new Set([...(merged.f || []), ...data.f]))`,
executed only when `data.f` is a non-empty array. -/
def mergeArrayUnion (m d : Option (List Str)) : Option (List Str) :=
  match d with
  | some l => if l ≠ [] then some (dedupFirst (m.getD [] ++ l)) else m
  | none => m

/-- Merging one provider's `WhoisData` into the accumulator: the generic
`Object.entries` loop applied field by field, then the special array merge. -/
def mergeData (merged : WhoisData) (d : WhoisData) : WhoisData :=
  let m : WhoisData :=
    { domainName := mergeScalar merged.domainName d.domainName
      registrar := mergeScalar merged.registrar d.registrar
      registrarUrl := mergeScalar merged.registrarUrl d.registrarUrl
      registrarIanaId := mergeScalar merged.registrarIanaId d.registrarIanaId
      creationDate := mergeScalar merged.creationDate d.creationDate
      updatedDate := mergeScalar merged.updatedDate d.updatedDate
      expirationDate := mergeScalar merged.expirationDate d.expirationDate
      registrantName := mergeScalar merged.registrantName d.registrantName
      registrantOrganization :=
        mergeScalar merged.registrantOrganization d.registrantOrganization
      registrantStreet := mergeScalar merged.registrantStreet d.registrantStreet
      registrantCity := mergeScalar merged.registrantCity d.registrantCity
      registrantState := mergeScalar merged.registrantState d.registrantState
      registrantPostalCode :=
        mergeScalar merged.registrantPostalCode d.registrantPostalCode
      registrantCountry := mergeScalar merged.registrantCountry d.registrantCountry
      registrantEmail := mergeScalar merged.registrantEmail d.registrantEmail
      registrantPhone := mergeScalar merged.registrantPhone d.registrantPhone
      adminName := mergeScalar merged.adminName d.adminName
      adminOrganization := mergeScalar merged.adminOrganization d.adminOrganization
      adminEmail := mergeScalar merged.adminEmail d.adminEmail
      adminPhone := mergeScalar merged.adminPhone d.adminPhone
      techName := mergeScalar merged.techName d.techName
      techOrganization := mergeScalar merged.techOrganization d.techOrganization
      techEmail := mergeScalar merged.techEmail d.techEmail
      techPhone := mergeScalar merged.techPhone d.techPhone
      nameServers := mergeArrayAssign merged.nameServers d.nameServers
      dnssec := mergeScalar merged.dnssec d.dnssec
      status := mergeArrayAssign merged.status d.status
      rawData := mergeScalar merged.rawData d.rawData }
  { m with
    nameServers := mergeArrayUnion m.nameServers d.nameServers
    status := mergeArrayUnion m.status d.status }

/-- Merge step at the `ProviderResponse` level (`response.data!`; the filter
guarantees the data is present, and a response without data is a no-op). -/
def mergeOne (merged : WhoisData) (r : ProviderResponse) : WhoisData :=
  match r.data with
  | none => merged
  | some d => mergeData merged d

/-- The successful responses kept by `mergeWhoisData`'s filter
(`r.success && r.data`). -/
def successesOf (responses : List ProviderResponse) : List ProviderResponse :=
  responses.filter (fun r => r.success && r.data.isSome)

/-- `mergeWhoisData` from `src/lib/whois-service.ts` (the identical function
also appears in the service variant `src/unnamed/part_011`): `null` when no
provider succeeded, otherwise a left fold of the per-provider merge starting
from `{ domainName: '' }`. -/
def mergeWhoisData (responses : List ProviderResponse) : Option WhoisData :=
  let successfulResponses := successesOf responses
  if successfulResponses.isEmpty then none
  else some (successfulResponses.foldl mergeOne { domainName := some [] })

/-- The `WhoisData` payloads of the successful responses, in order. -/
def datasOf (responses : List ProviderResponse) : List WhoisData :=
  (successesOf responses).filterMap (fun r => r.data)

/-- First defined, non-empty value of a priority-ordered field column. -/
def firstNonEmpty : List (Option Str) → Option Str
  | [] => none
  | d :: rest =>
    match d with
    | some v => if v ≠ [] then some v else firstNonEmpty rest
    | none => firstNonEmpty rest

/-- `dedupFirst` with an explicit accumulator of already-kept elements. -/
def dedupAux : List Str → List Str → List Str
  | a, [] => a
  | a, x :: l => if x ∈ a then dedupAux a l else dedupAux (a ++ [x]) l

/-- Combined per-response step on one array field: the generic assignment
followed by the special union, as `mergeData` performs them. -/
def arrStep (acc d : Option (List Str)) : Option (List Str) :=
  mergeArrayUnion (mergeArrayAssign acc d) d

/-- Provider A of the spec's merge example: supplies `registrar` but no
`nameServers`. -/
def exA : ProviderResponse :=
  { provider := "providerA".toList
    success := true
    data := some { domainName := some ("example.com".toList)
                   registrar := some ("Registrar A".toList) }
    responseTime := 5 }

/-- Provider B of the spec's merge example: supplies `nameServers` and a
different `registrar`. -/
def exB : ProviderResponse :=
  { provider := "providerB".toList
    success := true
    data := some { registrar := some ("Registrar B".toList)
                   nameServers := some ["ns1.example.com".toList, "ns2.example.com".toList] }
    responseTime := 7 }

/-- The merge example's response list, priority-ordered. -/
def exRs : List ProviderResponse := [exA, exB]

/-- The merged record the example produces. -/
def exMerged : WhoisData :=
  { domainName := some ("example.com".toList)
    registrar := some ("Registrar A".toList)
    nameServers := some ["ns1.example.com".toList, "ns2.example.com".toList] }

end WS

namespace DU

/-- `parseDate` from `src/lib/domain-utils.ts`.  JS `Date` parsing is
implementation-defined, so the embedding is parameterized by the parse
function `jsDate` (`none` models an invalid date, i.e. a `NaN` timestamp) and
by `toIso` (`Date.prototype.toISOString`, total on valid dates).  The
function's `catch` branch would return the input, but it is unreachable: the
`isNaN` guard returns before `toISOString` could throw, and the `Date`
constructor itself never throws. -/
def parseDate (jsDate : Str → Option Int) (toIso : Int → Str) :
    Option Str → Option Str
  | none => none
  | some s =>
    if s = [] then none
    else
      match jsDate s with
      | none => some s
      | some t => some (toIso t)

/-- A concrete stand-in for the JS date parser, recognising one fixed date. -/
def exJsDate : Str → Option Int := fun s =>
  if s = "1995-08-14".toList then some 808358400000 else none

/-- A concrete stand-in for `Date.prototype.toISOString`. -/
def exToIso : Int → Str := fun t =>
  if t = 808358400000 then "1995-08-14T00:00:00.000Z".toList else []

/-- ASCII letter (the `[a-zA-Z]` class of the validation regexes). -/
def isAsciiLetter (c : Char) : Bool :=
  ('a' ≤ c && c ≤ 'z') || ('A' ≤ c && c ≤ 'Z')

/-- The `[a-zA-Z0-9]` class. -/
def isAlnum (c : Char) : Bool := isAsciiLetter c || ('0' ≤ c && c ≤ '9')

/-- One non-final label of `DOMAIN_REGEX`
(`[a-zA-Z0-9](?:[a-zA-Z0-9-]{0,61}[a-zA-Z0-9])?`): 1 to 63 characters,
alphanumeric at both ends, alphanumeric or hyphen in between. -/
def validLabel (l : Str) : Bool :=
  match l with
  | [] => false
  | [c] => isAlnum c
  | c :: rest =>
    isAlnum c && decide (rest.length ≤ 62) &&
      (match rest.getLast? with
        | some d => isAlnum d
        | none => false) &&
      rest.dropLast.all (fun x => isAlnum x || x = '-')

/-- The final label `[a-zA-Z]{2,}`. -/
def allAlpha2 (l : Str) : Bool := decide (2 ≤ l.length) && l.all isAsciiLetter

/-- `DOMAIN_REGEX.test`: since a label cannot contain a dot, the anchored
`^(label\.)+[a-zA-Z]{2,}$` holds exactly when splitting on dots yields at
least two parts, every non-final part is a label and the final part is
alphabetic of length at least two. -/
def domainRegexTest (s : Str) : Bool :=
  let parts := JS.splitOnChar '.' s
  decide (2 ≤ parts.length) && parts.dropLast.all validLabel &&
    (match parts.getLast? with
      | some last => allAlpha2 last
      | none => false)

/-- One non-final label of `IDN_REGEX` (`xn--[a-zA-Z0-9]+`). -/
def idnLabel (l : Str) : Bool :=
  JS.startsWith l ("xn--".toList) && !(l.drop 4).isEmpty && (l.drop 4).all isAlnum

/-- `IDN_REGEX.test` (`^(?:xn--[a-zA-Z0-9]+\.)+[a-zA-Z]{2,}$`), by the same
dot-splitting argument as `domainRegexTest`. -/
def idnRegexTest (s : Str) : Bool :=
  let parts := JS.splitOnChar '.' s
  decide (2 ≤ parts.length) && parts.dropLast.all idnLabel &&
    (match parts.getLast? with
      | some last => allAlpha2 last
      | none => false)

/-- `isValidDomain` from `src/lib/domain-utils.ts`. -/
def isValidDomain (domain : Str) : Bool :=
  if domain = [] then false
  else
    let cleanDomain := JS.trim (JS.lower domain)
    if 253 < cleanDomain.length then false
    else domainRegexTest cleanDomain || idnRegexTest cleanDomain

/-- `normalizeDomain` from `src/lib/domain-utils.ts`: lowercase and trim,
strip a leading `http://`/`https://` (the `/i` flag is absorbed by the
lowercasing), strip a leading `www.`, then truncate at the first `/` and at
the first `:`. -/
def normalizeDomain (domain : Str) : Str :=
  let n1 := JS.trim (JS.lower domain)
  let n2 :=
    if JS.startsWith n1 ("https://".toList) then n1.drop 8
    else if JS.startsWith n1 ("http://".toList) then n1.drop 7
    else n1
  let n3 := if JS.startsWith n2 ("www.".toList) then n2.drop 4 else n2
  let n4 := n3.takeWhile (fun c => c ≠ '/')
  n4.takeWhile (fun c => c ≠ ':')

end DU

namespace Native

/-- Does the key match one of the synonym-table entries of the `switch`? -/
def keyIn (key : Str) (ks : List String) : Bool := ks.any (fun k => key = k.toList)

/-- The `\w` character class. -/
def isWordCh (c : Char) : Bool := DU.isAlnum c || c = '_'

/-- The `[\w\-\.]` class used by the nameserver patterns. -/
def isHostMid (c : Char) : Bool := isWordCh c || c = '-' || c = '.'

/-- Anchored test `/^[a-z0-9][\w\-\.]+\.[a-z]{2,}$/i` on one token: first
character alphanumeric, at least one middle character from `[\w\-\.]`, and at
least two letters after the last dot (an earlier dot cannot work because the
trailing `[a-z]{2,}$` may not contain a dot). -/
def hostTokenFull (t : Str) : Bool :=
  let revTail := t.reverse.takeWhile (fun c => c ≠ '.')
  if revTail.length = t.length then false
  else
    let tl := revTail.reverse
    let pre := t.take (t.length - tl.length - 1)
    decide (2 ≤ tl.length) && tl.all DU.isAsciiLetter &&
      (match pre with
        | [] => false
        | c0 :: mid => DU.isAlnum c0 && !mid.isEmpty && mid.all isHostMid)

/-- Match `\*\*\s*Domain Servers:\s*\n` (case-insensitively) at the start of
`s`.  The greedy `\s*` after the colon backtracks so that the explicit `\n`
is the last newline of the whitespace run; the returned capture region starts
right after it. -/
def matchDomainServersHeader (s : Str) : Option Str :=
  if JS.startsWith s ("**".toList) then
    let s1 := (s.drop 2).dropWhile JS.isWs
    if JS.startsWith (JS.lower s1) ("domain servers:".toList) then
      let rest := s1.drop 15
      let run := rest.takeWhile JS.isWs
      if '\n' ∈ run then
        let afterLastNl := (run.reverse.takeWhile (fun c => c ≠ '\n')).reverse
        some (afterLastNl ++ rest.drop run.length)
      else none
    else none
  else none

/-- The lazy capture `([\s\S]*?)` with lookahead `(?=\n\*\*|\n\n|$)`: the
text up to, and excluding, the first `\n` that is followed by `**` or by
another `\n`, or the whole remainder if no such stop occurs. -/
def captureUntilStop : Str → Str
  | [] => []
  | c :: rest =>
    if c = '\n' && (JS.startsWith rest ("**".toList) || JS.startsWith rest ("\n".toList))
    then []
    else c :: captureUntilStop rest

/-- First match of the unanchored Domain-Servers section regex: try the
header at every successive position. -/
def findDomainServersSection : Str → Option Str
  | [] => none
  | c :: rest =>
    match matchDomainServersHeader (c :: rest) with
    | some cap => some (captureUntilStop cap)
    | none => findDomainServersSection rest

/-- The `"** Domain Servers:"` fallback of `parseWhoisText`
(`src/lib/providers/native.ts`): collect, deduplicated and lowercased, the
first whitespace-token of every line of the captured section that fully
matches the hostname pattern. -/
def domainServersScan (rawData : Str) : List Str :=
  match findDomainServersSection rawData with
  | none => []
  | some serversSection =>
    (JS.splitOnChar '\n' serversSection).foldl
      (fun acc line =>
        let trimmed := JS.trim line
        if !trimmed.isEmpty && hostTokenFull (JS.firstTokenWs trimmed) then
          let ns := JS.lower (JS.firstTokenWs trimmed)
          if ns ∈ acc then acc else acc ++ [ns]
        else acc) []

/-- The alternation `(?:nserver|name\s*server|nameserver|ns)` matched
case-insensitively at the head of `s`, alternatives in the regex's order;
returns the remainder after the matched keyword. -/
def matchNsKeyword (s : Str) : Option Str :=
  let ls := JS.lower s
  if JS.startsWith ls ("nserver".toList) then some (s.drop 7)
  else if JS.startsWith ls ("name".toList) &&
      JS.startsWith (JS.lower ((s.drop 4).dropWhile JS.isWs)) ("server".toList) then
    some (((s.drop 4).dropWhile JS.isWs).drop 6)
  else if JS.startsWith ls ("nameserver".toList) then some (s.drop 10)
  else if JS.startsWith ls ("ns".toList) then some (s.drop 2)
  else none

/-- The capture `([a-z0-9][\w\-\.]+\.[a-z]{2,})` as an unanchored prefix of
`s`: the greedy `[\w\-\.]+` backtracks to the last dot of the host-character
run that has at least two letters right after it and at least one run
character before it; `[a-z]{2,}` then takes the maximal letter run.  Returns
the captured token and the remainder after the match. -/
def matchHostCapture (s : Str) : Option (Str × Str) :=
  match s with
  | [] => none
  | c0 :: rest =>
    if DU.isAlnum c0 then
      let run := rest.takeWhile isHostMid
      let candidates := (List.range run.length).filter (fun k =>
        decide (run.get? k = some '.') && decide (1 ≤ k) &&
        decide (2 ≤ ((run.drop (k + 1)).takeWhile DU.isAsciiLetter).length))
      match candidates.getLast? with
      | none => none
      | some k =>
        let letters := (run.drop (k + 1)).takeWhile DU.isAsciiLetter
        let tok := c0 :: (run.take (k + 1) ++ letters)
        some (tok, s.drop tok.length)
    else none

/-- One pass of the global `exec` loop over
`/(?:nserver|name\s*server|nameserver|ns):\s*([a-z0-9][\w\-\.]+\.[a-z]{2,})/gi`:
on a match, push the lowered, trimmed capture if new and resume after the
match; otherwise advance one position.  `fuel` bounds the recursion (every
step consumes at least one character). -/
def nsRegexScanAux : Nat → Str → List Str → List Str
  | 0, _, acc => acc
  | _ + 1, [], acc => acc
  | fuel + 1, c :: rest, acc =>
    match matchNsKeyword (c :: rest) with
    | some afterKw =>
      (match afterKw with
        | ':' :: afterColon =>
          (match matchHostCapture (afterColon.dropWhile JS.isWs) with
            | some (tok, remainder) =>
              let ns := JS.trim (JS.lower tok)
              let acc2 := if !ns.isEmpty && !(ns ∈ acc) then acc ++ [ns] else acc
              nsRegexScanAux fuel remainder acc2
            | none => nsRegexScanAux fuel rest acc)
        | _ => nsRegexScanAux fuel rest acc)
    | none => nsRegexScanAux fuel rest acc

/-- The catch-all nameserver regex sweep of `parseWhoisText`. -/
def nsRegexScan (rawData : Str) : List Str :=
  nsRegexScanAux (rawData.length + 1) rawData []

/-- Parser state: the record under construction plus the two multi-valued
accumulators. -/
structure ParseSt where
  data : WS.WhoisData
  nameServers : List Str
  statuses : List Str
  deriving Repr

/-- The `switch (key)` of `parseWhoisText`, one line's key/value applied to
the state.  Later duplicate keys overwrite scalar fields, as assignment in
the source does; nameservers and statuses accumulate with deduplication. -/
def applyKey (jsDate : Str → Option Int) (toIso : Int → Str)
    (st : ParseSt) (key value : Str) : ParseSt :=
  let d := st.data
  if keyIn key ["domain name", "domain", "alan adı"] then
    { st with data := { d with domainName := some (JS.lower value) } }
  else if keyIn key ["registrar", "registrar name", "sponsoring registrar",
      "kayıt operatörü"] then
    { st with data := { d with registrar := some value } }
  else if keyIn key ["registrar url", "registrar-url"] then
    { st with data := { d with registrarUrl := some value } }
  else if keyIn key ["registrar iana id"] then
    { st with data := { d with registrarIanaId := some value } }
  else if keyIn key ["creation date", "created", "created date",
      "registration date", "created on", "domain created", "registered",
      "registered on", "kayıt tarihi"] then
    { st with data := { d with creationDate := DU.parseDate jsDate toIso (some value) } }
  else if keyIn key ["updated date", "last updated", "last modified",
      "changed", "modified", "güncellenme tarihi"] then
    { st with data := { d with updatedDate := DU.parseDate jsDate toIso (some value) } }
  else if keyIn key ["expiration date", "registry expiry date",
      "registrar registration expiration date", "expires", "expire date",
      "expires on", "expiry date", "renewal date", "paid-till",
      "bitiş tarihi"] then
    { st with data := { d with expirationDate := DU.parseDate jsDate toIso (some value) } }
  else if keyIn key ["registrant name", "registrant", "owner", "holder",
      "kayıt sahibi"] then
    { st with data := { d with registrantName := some value } }
  else if keyIn key ["registrant organization", "registrant org",
      "organization", "org", "kuruluş"] then
    { st with data := { d with registrantOrganization := some value } }
  else if keyIn key ["registrant street", "registrant address", "address",
      "adres"] then
    { st with data := { d with registrantStreet := some value } }
  else if keyIn key ["registrant city", "city", "şehir"] then
    { st with data := { d with registrantCity := some value } }
  else if keyIn key ["registrant state/province", "registrant state",
      "state", "province"] then
    { st with data := { d with registrantState := some value } }
  else if keyIn key ["registrant postal code", "postal code", "posta kodu"] then
    { st with data := { d with registrantPostalCode := some value } }
  else if keyIn key ["registrant country", "country", "ülke"] then
    { st with data := { d with registrantCountry := some value } }
  else if keyIn key ["registrant email", "e-mail", "email"] then
    { st with data := { d with registrantEmail := some value } }
  else if keyIn key ["registrant phone", "phone", "telefon"] then
    { st with data := { d with registrantPhone := some value } }
  else if keyIn key ["admin name", "admin contact", "administrative contact"] then
    { st with data := { d with adminName := some value } }
  else if keyIn key ["admin organization"] then
    { st with data := { d with adminOrganization := some value } }
  else if keyIn key ["admin email"] then
    { st with data := { d with adminEmail := some value } }
  else if keyIn key ["admin phone"] then
    { st with data := { d with adminPhone := some value } }
  else if keyIn key ["tech name", "tech contact", "technical contact"] then
    { st with data := { d with techName := some value } }
  else if keyIn key ["tech organization"] then
    { st with data := { d with techOrganization := some value } }
  else if keyIn key ["tech email"] then
    { st with data := { d with techEmail := some value } }
  else if keyIn key ["tech phone"] then
    { st with data := { d with techPhone := some value } }
  else if keyIn key ["name server", "nameserver", "nserver", "ns", "dns",
      "host name", "isim sunucusu", "nameservers", "name servers"] then
    let nsValue := JS.firstTokenWs (JS.lower value)
    if !nsValue.isEmpty && !(nsValue ∈ st.nameServers) then
      { st with nameServers := st.nameServers ++ [nsValue] }
    else st
  else if keyIn key ["dnssec"] then
    { st with data := { d with dnssec := some value } }
  else if keyIn key ["domain status", "status", "durum"] then
    let statusValue := JS.firstTokenSpace value
    if !statusValue.isEmpty && !(statusValue ∈ st.statuses) then
      { st with statuses := st.statuses ++ [statusValue] }
    else st
  else st

/-- One line of the `for (const line of lines)` loop of `parseWhoisText`:
skip blanks and `%`/`#` comments, split at the first colon, skip empty
values, then dispatch on the key. -/
def processLine (jsDate : Str → Option Int) (toIso : Int → Str)
    (st : ParseSt) (line : Str) : ParseSt :=
  let trimmedLine := JS.trim line
  if trimmedLine.isEmpty || JS.startsWith trimmedLine ("%".toList) ||
      JS.startsWith trimmedLine ("#".toList) then st
  else
    match JS.indexOfCh ':' trimmedLine with
    | none => st
    | some colonIndex =>
      let key := JS.lower (JS.trim (trimmedLine.take colonIndex))
      let value := JS.trim (trimmedLine.drop (colonIndex + 1))
      if value.isEmpty then st
      else applyKey jsDate toIso st key value

/-- `parseWhoisText` from `src/lib/providers/native.ts`: the line loop, then
the two nameserver fallbacks (the `"** Domain Servers:"` section, then the
catch-all regex sweep), then the conditional array assignments.  The JS date
parser is abstracted as in `DU.parseDate`. -/
def parseWhoisText (jsDate : Str → Option Int) (toIso : Int → Str)
    (rawData : Str) (domain : Str) : WS.WhoisData :=
  let init : ParseSt :=
    { data := { domainName := some domain, rawData := some rawData }
      nameServers := [], statuses := [] }
  let st := (JS.splitOnChar '\n' rawData).foldl (processLine jsDate toIso) init
  let ns1 := st.nameServers
  let ns2 := if ns1.isEmpty then domainServersScan rawData else ns1
  let ns3 := if ns2.isEmpty then nsRegexScan rawData else ns2
  let d1 := st.data
  let d2 := if ns3.isEmpty then d1 else { d1 with nameServers := some ns3 }
  if st.statuses.isEmpty then d2 else { d2 with status := some st.statuses }

/-- JS falsiness of an optional string field (`undefined` or `''`). -/
def falsyStr (o : Option Str) : Bool :=
  match o with
  | none => true
  | some v => v.isEmpty

/-- `queryNativeWhois` from `src/lib/providers/native.ts`, parameterized by
the outcome of the `whois` library call (`.error` models the `catch` branch:
a thrown error, including the explicit timeout rejection) and by the elapsed
time.  `rawData.length` counts characters; the engine's threshold inputs are
ASCII, where JS UTF-16 length agrees. -/
def queryNativeWhois (jsDate : Str → Option Int) (toIso : Int → Str)
    (lookupOutcome : Except Str Str) (domain : Str) (responseTime : Nat) :
    WS.ProviderResponse :=
  match lookupOutcome with
  | .error e =>
    { provider := "native".toList, success := false, error := some e,
      responseTime := responseTime }
  | .ok rawData =>
    if (JS.trim rawData).isEmpty then
      { provider := "native".toList, success := false,
        error := some ("boş whois yanıtı".toList), responseTime := responseTime }
    else
      let lowerData := JS.lower rawData
      if JS.includes lowerData ("no match".toList) ||
          JS.includes lowerData ("not found".toList) ||
          JS.includes lowerData ("no entries found".toList) ||
          JS.includes lowerData ("no data found".toList) then
        { provider := "native".toList, success := false,
          error := some ("domain whois veritabanında bulunamadı".toList),
          responseTime := responseTime }
      else
        let data := parseWhoisText jsDate toIso rawData domain
        if falsyStr data.registrar && falsyStr data.creationDate &&
            data.nameServers = none then
          if 100 < rawData.length then
            { provider := "native".toList, success := true,
              data := some { data with rawData := some rawData },
              responseTime := responseTime }
          else
            { provider := "native".toList, success := false,
              error := some ("whois yanıtı kullanışlı veri içermiyor".toList),
              responseTime := responseTime }
        else
          { provider := "native".toList, success := true, data := some data,
            responseTime := responseTime }

/-- No recognized field was parsed: every field except the always-set
`domainName` and `rawData` is still absent. -/
def noRecognizedFields (d : WS.WhoisData) : Bool :=
  d.registrar = none && d.registrarUrl = none && d.registrarIanaId = none &&
  d.creationDate = none && d.updatedDate = none && d.expirationDate = none &&
  d.registrantName = none && d.registrantOrganization = none &&
  d.registrantStreet = none && d.registrantCity = none &&
  d.registrantState = none && d.registrantPostalCode = none &&
  d.registrantCountry = none && d.registrantEmail = none &&
  d.registrantPhone = none && d.adminName = none && d.adminOrganization = none &&
  d.adminEmail = none && d.adminPhone = none && d.techName = none &&
  d.techOrganization = none && d.techEmail = none && d.techPhone = none &&
  d.nameServers = none && d.dnssec = none && d.status = none

/-- A 101-character response in an unrecognized dialect: no colons, no
comment markers, no nameserver patterns. -/
def exRaw101 : Str := List.replicate 101 'x'

end Native

namespace Tredis

/-- `isTrDomain` from the TREDIS provider (`src/unnamed/part_008`). -/
def isTrDomain (domain : Str) : Bool :=
  JS.endsWith (JS.lower domain) (".tr".toList)

/-- The `switch (key)` of `parseTredisResponse`. Registrar and registrant
organization are guarded first-wins assignments in the source; the other
scalar fields overwrite. -/
def applyTredisKey (jsDate : Str → Option Int) (toIso : Int → Str)
    (st : Native.ParseSt) (key value : Str) : Native.ParseSt :=
  let d := st.data
  if Native.keyIn key ["domain name", "domain", "alan adı"] then
    { st with data := { d with domainName := some (JS.lower value) } }
  else if Native.keyIn key ["registrar", "registrar name", "kayıt firması",
      "kayıt operatörü", "organization", "kuruluş", "registrant organization"] then
    let d1 := if Native.falsyStr d.registrar then { d with registrar := some value } else d
    let d2 := if Native.falsyStr d1.registrantOrganization then
        { d1 with registrantOrganization := some value } else d1
    { st with data := d2 }
  else if Native.keyIn key ["registrant", "registrant name", "kayıt sahibi",
      "sahibi", "holder"] then
    { st with data := { d with registrantName := some value } }
  else if Native.keyIn key ["created on", "created", "creation date",
      "kayıt tarihi", "registered", "registration date"] then
    { st with data := { d with creationDate := DU.parseDate jsDate toIso (some value) } }
  else if Native.keyIn key ["expires on", "expires", "expiration date",
      "bitiş tarihi", "expiry date", "renewal date"] then
    { st with data := { d with expirationDate := DU.parseDate jsDate toIso (some value) } }
  else if Native.keyIn key ["last modified", "last updated", "updated date",
      "modified", "güncellenme tarihi"] then
    { st with data := { d with updatedDate := DU.parseDate jsDate toIso (some value) } }
  else if Native.keyIn key ["address", "adres", "registrant address"] then
    { st with data := { d with registrantStreet := some value } }
  else if Native.keyIn key ["city", "şehir", "il"] then
    { st with data := { d with registrantCity := some value } }
  else if Native.keyIn key ["country", "ülke"] then
    { st with data := { d with registrantCountry := some value } }
  else if Native.keyIn key ["phone", "tel", "telefon"] then
    { st with data := { d with registrantPhone := some value } }
  else if Native.keyIn key ["e-mail", "email"] then
    { st with data := { d with registrantEmail := some value } }
  else if Native.keyIn key ["name server", "nameserver", "nserver", "ns",
      "dns", "isim sunucusu", "host name"] then
    let ns := JS.firstTokenWs (JS.lower value)
    if !ns.isEmpty && !(ns ∈ st.nameServers) then
      { st with nameServers := st.nameServers ++ [ns] }
    else st
  else if Native.keyIn key ["status", "domain status", "durum"] then
    let statusValue := JS.firstTokenSpace value
    if !statusValue.isEmpty && !(statusValue ∈ st.statuses) then
      { st with statuses := st.statuses ++ [statusValue] }
    else st
  else if Native.keyIn key ["admin", "admin name", "administrative contact",
      "yönetici"] then
    { st with data := { d with adminName := some value } }
  else if Native.keyIn key ["tech", "tech name", "technical contact",
      "teknik yetkili"] then
    { st with data := { d with techName := some value } }
  else if Native.keyIn key ["billing", "billing name", "fatura yetkili"] then
    if Native.falsyStr d.adminName then
      { st with data := { d with adminName := some value } }
    else st
  else st

/-- One line of the TREDIS parser loop: skip blanks, `**` banners and `%`
comments; split at the first colon, falling back to the first period if it
occurs within the first 30 characters; skip empty values. -/
def processTredisLine (jsDate : Str → Option Int) (toIso : Int → Str)
    (st : Native.ParseSt) (line : Str) : Native.ParseSt :=
  let trimmedLine := JS.trim line
  if trimmedLine.isEmpty || JS.startsWith trimmedLine ("**".toList) ||
      JS.startsWith trimmedLine ("%".toList) then st
  else
    let colonIndex :=
      match JS.indexOfCh ':' trimmedLine with
      | some i => some i
      | none =>
        match JS.indexOfCh '.' trimmedLine with
        | some j => if 30 < j then none else some j
        | none => none
    match colonIndex with
    | none => st
    | some ci =>
      let key := JS.lower (JS.trim (trimmedLine.take ci))
      let value := JS.trim (trimmedLine.drop (ci + 1))
      if value.isEmpty then st
      else applyTredisKey jsDate toIso st key value

/-- All matches of the global banner regex `/\*\*\s*([^*]+)\s*\*\*/g`: a
`**`, a non-empty star-free run, then `**`; scanning resumes after each
match, advancing one position on failure.  `fuel` bounds the recursion. -/
def tredisSections : Nat → Str → List Str
  | 0, _ => []
  | _ + 1, [] => []
  | fuel + 1, c :: rest =>
    if JS.startsWith (c :: rest) ("**".toList) then
      let body := ((c :: rest).drop 2).takeWhile (fun x => x ≠ '*')
      let after := ((c :: rest).drop 2).drop body.length
      if !body.isEmpty && JS.startsWith after ("**".toList) then
        (("**".toList) ++ body ++ ("**".toList)) :: tredisSections fuel (after.drop 2)
      else tredisSections fuel rest
    else tredisSections fuel rest

/-- `parseTredisResponse` from `src/unnamed/part_008`: the line loop, then
the `"** ... **"` banner pass that records an `active` status, then the
conditional array assignments. -/
def parseTredisResponse (jsDate : Str → Option Int) (toIso : Int → Str)
    (rawData : Str) (domain : Str) : WS.WhoisData :=
  let init : Native.ParseSt :=
    { data := { domainName := some domain, rawData := some rawData }
      nameServers := [], statuses := [] }
  let st := (JS.splitOnChar '\n' rawData).foldl (processTredisLine jsDate toIso) init
  let statuses := (tredisSections (rawData.length + 1) rawData).foldl
    (fun acc m =>
      let content := JS.lower (JS.trim (m.filter (fun c => c ≠ '*')))
      if (JS.includes content ("aktif".toList) || JS.includes content ("active".toList)) &&
          !(("active".toList) ∈ acc) then
        acc ++ [("active".toList)]
      else acc) st.statuses
  let d1 := st.data
  let d2 := if st.nameServers.isEmpty then d1
    else { d1 with nameServers := some st.nameServers }
  if statuses.isEmpty then d2 else { d2 with status := some statuses }

/-- `queryTredis` from `src/unnamed/part_008`, parameterized by the outcome
of the `queryTredisSocket` call.  The second component of the result records
whether the socket was used at all: the non-`.tr` early return never reaches
the network. -/
def queryTredis (jsDate : Str → Option Int) (toIso : Int → Str)
    (socketOutcome : Except Str Str) (domain : Str) (rt : Nat) :
    WS.ProviderResponse × Bool :=
  if !isTrDomain domain then
    ({ provider := "tredis".toList, success := false,
       error := some ("TREDIS only supports .tr domains".toList),
       responseTime := rt }, false)
  else
    match socketOutcome with
    | .error e =>
      ({ provider := "tredis".toList, success := false, error := some e,
         responseTime := rt }, true)
    | .ok rawData =>
      if (JS.trim rawData).isEmpty then
        ({ provider := "tredis".toList, success := false,
           error := some ("Empty TREDIS response".toList), responseTime := rt }, true)
      else
        let lowerData := JS.lower rawData
        if JS.includes lowerData ("no match".toList) ||
            JS.includes lowerData ("not found".toList) ||
            JS.includes lowerData ("no entries".toList) ||
            JS.includes lowerData ("bulunamadı".toList) ||
            JS.includes lowerData ("kayıtlı değil".toList) ||
            JS.includes lowerData ("no data found".toList) then
          ({ provider := "tredis".toList, success := false,
             error := some ("Domain bulunamadı (Domain not found in TREDIS)".toList),
             responseTime := rt }, true)
        else
          let data := parseTredisResponse jsDate toIso rawData domain
          if Native.falsyStr data.registrar && Native.falsyStr data.registrantName &&
              Native.falsyStr data.creationDate && data.nameServers = none then
            if 50 < rawData.length then
              ({ provider := "tredis".toList, success := true,
                 data := some { data with rawData := some rawData },
                 responseTime := rt }, true)
            else
              ({ provider := "tredis".toList, success := false,
                 error := some ("TREDIS response contains no useful data".toList),
                 responseTime := rt }, true)
          else
            ({ provider := "tredis".toList, success := true, data := some data,
               responseTime := rt }, true)

end Tredis

namespace PM

/-- A provider as `ProviderManager` (`src/unnamed/part_005`) sees it: a name,
its rate-limiter state (`requests`/`limit`; within one `execute` call the
window does not elapse, so `startTime`/`windowMs` are not part of the state),
and the outcome its `lookup` would produce for the query (`.error` models a
thrown exception). -/
structure ProviderM (α : Type) where
  name : Str
  requests : Nat
  limit : Nat
  lookupResult : Except Str α
  deriving Repr

/-- `RateLimiter.check` without a window reset: `requests < limit`. -/
def isReady {α : Type} (p : ProviderM α) : Bool := decide (p.requests < p.limit)

/-- `incrementUsage` / `RateLimiter.increment`. -/
def increment {α : Type} (p : ProviderM α) : ProviderM α :=
  { p with requests := p.requests + 1 }

/-- The `while (!looped || currentIndex !== start)` scan of
`getNextProvider`: each iteration reads the provider at `currentIndex`,
advances the index modulo the provider count, skips tried providers, and
returns the first ready untried one (with the position it was found at and
the updated index).  The loop visits exactly `ps.length` slots before the
`looped` flag terminates it, which the fuel argument mirrors. -/
def scanNext {α : Type} (ps : List (ProviderM α)) :
    Nat → Nat → List Str → Option (ProviderM α × Nat × Nat)
  | 0, _, _ => none
  | fuel + 1, idx, tried =>
    match ps[idx]? with
    | none => none
    | some p =>
      let idx2 := (idx + 1) % ps.length
      if p.name ∈ tried then scanNext ps fuel idx2 tried
      else if isReady p then some (p, idx, idx2)
      else scanNext ps fuel idx2 tried

/-- `ProviderManager.getNextProvider`. -/
def getNextProvider {α : Type} (ps : List (ProviderM α)) (idx : Nat)
    (tried : List Str) : Option (ProviderM α × Nat × Nat) :=
  scanNext ps ps.length idx tried

/-- The `for (let i = 0; i < this.providers.length; i++)` loop of
`ProviderManager.execute`: on a `null` selection it throws the distinct
rate-limited error when nothing was tried yet and otherwise breaks to the
final `throw lastError || "All providers failed"`; on a selection it
increments the provider's usage, marks it tried, and returns its lookup
result or records the error and continues. -/
def executeLoop {α : Type} :
    List (ProviderM α) → Nat → List Str → Option Str → Nat → Except Str α
  | _, _, _, lastError, 0 => .error (lastError.getD ("All providers failed".toList))
  | ps, idx, tried, lastError, i + 1 =>
    match getNextProvider ps idx tried with
    | none =>
      if tried.isEmpty then .error ("No providers available (rate limited)".toList)
      else .error (lastError.getD ("All providers failed".toList))
    | some (p, j, idx2) =>
      match p.lookupResult with
      | .ok v => .ok v
      | .error e => executeLoop (ps.set j (increment p)) idx2 (p.name :: tried) (some e) i

/-- `ProviderManager.execute`, from the manager state (provider list and
round-robin index). -/
def execute {α : Type} (ps : List (ProviderM α)) (idx : Nat) : Except Str α :=
  executeLoop ps idx [] none ps.length

/-- A manager in which every provider has exhausted its quota. -/
def exLimited : List (ProviderM Nat) :=
  [{ name := "Direct".toList, requests := 100, limit := 100, lookupResult := .ok 0 },
   { name := "Backup".toList, requests := 60, limit := 60, lookupResult := .ok 1 }]

end PM

namespace NW

/-- The `WhoisResult` envelope of the next-whois lookup module
(`src/unnamed/part_005`), with the analyzed payload abstracted as `α`.
`cached` is an optional flag that the cached-lookup wrapper sets. -/
structure WhoisResultR (α : Type) where
  status : Bool
  time : Nat
  result : Option α := none
  error : Option Str := none
  cached : Option Bool := none
  deriving Repr, DecidableEq

/-- `lookupWhois` from `src/unnamed/part_005`, parameterized by the outcome
of `providerManager.execute(domain)` and the measured duration. -/
def lookupWhois (α : Type) (execOutcome : Except Str α) (dur : Nat) :
    WhoisResultR α :=
  match execOutcome with
  | .ok r => { status := true, time := dur, result := some r }
  | .error e => { status := false, time := dur, error := some e }

/-- Modelled from the spec: the redis helpers of `@/lib/server/redis`
(repository code not present under src/) form a JSON key-value store with
TTL support (spec section 4.8 / 6, "any key-value store with TTL support").
An entry is the stored value with its effective TTL in seconds. -/
def RedisState (α : Type) := Str → Option (WhoisResultR α × Nat)

/-- Modelled from the spec: `getJsonRedisValue` returns the stored value. -/
def getJsonRedisValue {α : Type} (st : RedisState α) (key : Str) :
    Option (WhoisResultR α) :=
  (st key).map Prod.fst

/-- Modelled from the spec: `setJsonRedisValue` stores under the module's
default TTL (a parameter of the model). -/
def setJsonRedisValue {α : Type} (defaultTtl : Nat) (st : RedisState α)
    (key : Str) (v : WhoisResultR α) : RedisState α :=
  fun k => if k = key then some (v, defaultTtl) else st k

/-- Modelled from the spec: `setJsonRedisValueWithTTL` stores under an
explicit TTL. -/
def setJsonRedisValueWithTTL {α : Type} (st : RedisState α) (key : Str)
    (v : WhoisResultR α) (ttl : Nat) : RedisState α :=
  fun k => if k = key then some (v, ttl) else st k

/-- `NOT_FOUND_CACHE_TTL` from `src/unnamed/part_005`: one hour. -/
def NOT_FOUND_CACHE_TTL : Nat := 3600

/-- The `isNotFoundError` test of `lookupWhoisWithCache` (an error whose
lowercase text contains "not found" or "domain or tld not found"). -/
def isNotFoundErrorOf {α : Type} (r : WhoisResultR α) : Bool :=
  match r.error with
  | some e => JS.includes (JS.lower e) ("not found".toList) ||
      JS.includes (JS.lower e) ("domain or tld not found".toList)
  | none => false

/-- The `isTransientError` test of `lookupWhoisWithCache` (timeout, rate
limit, connection, refused). -/
def isTransientErrorOf {α : Type} (r : WhoisResultR α) : Bool :=
  match r.error with
  | some e => JS.includes (JS.lower e) ("timeout".toList) ||
      JS.includes (JS.lower e) ("rate limit".toList) ||
      JS.includes (JS.lower e) ("connection".toList) ||
      JS.includes (JS.lower e) ("refused".toList)
  | none => false

/-- `lookupWhoisWithCache` from `src/unnamed/part_005`: normalize the
domain, return a cache hit with `cached = true` and zero time; on a miss,
perform the lookup, cache a success under the default TTL, cache a confirmed
not-found error under `NOT_FOUND_CACHE_TTL`, cache transient errors not at
all, and return the fresh result with `cached = false` together with the
updated store. -/
def lookupWhoisWithCache (α : Type) (defaultTtl : Nat) (st : RedisState α)
    (domain : Str) (execOutcome : Except Str α) (dur : Nat) :
    WhoisResultR α × RedisState α :=
  let normalizedDomain := JS.trim (JS.lower domain)
  let key := ("whois:".toList) ++ normalizedDomain
  match getJsonRedisValue st key with
  | some cached => ({ cached with time := 0, cached := some true }, st)
  | none =>
    let result := lookupWhois α execOutcome dur
    let isNotFoundError := isNotFoundErrorOf result
    let isTransientError := isTransientErrorOf result
    let st2 :=
      if result.status then setJsonRedisValue defaultTtl st key result
      else if isNotFoundError && !isTransientError then
        setJsonRedisValueWithTTL st key result NOT_FOUND_CACHE_TTL
      else st
    ({ result with cached := some false }, st2)

/-- The empty redis store. -/
def emptyRedis (α : Type) : RedisState α := fun _ => none

end NW

namespace Rdap

/-- One entry of the RDAP `cidr0_cidrs` array.  The source field names are
`v4prefix`, `v6prefix` and `length`; the first two are renamed `prefixV4` /
`prefixV6` here. -/
structure Cidr0 where
  prefixV4 : Option Str := none
  prefixV6 : Option Str := none
  length : Option Nat := none
  deriving Repr, DecidableEq

/-- An RDAP lifecycle event. -/
structure RdapEvent where
  eventAction : Option Str := none
  eventDate : Option Str := none
  deriving Repr, DecidableEq

/-- One vCard field as the formatter reads it: `field[0]` (the name),
`field[1]?.label` (the address label parameter) and `field[3]` (the value). -/
structure VCF where
  fname : Str
  label : Option Str := none
  value : Str := []
  deriving Repr, DecidableEq

/-- A nested RDAP entity one level down (`entity.entities[i]`); the code
reads only its roles and vCard.  `vcard` models `vcardArray?.[1]`. -/
structure RdapSubEntity where
  roles : Option (List Str) := none
  vcard : Option (List VCF) := none
  deriving Repr, DecidableEq

/-- A top-level RDAP entity; the code reads one nesting level only. -/
structure RdapEntity where
  roles : Option (List Str) := none
  vcard : Option (List VCF) := none
  entities : Option (List RdapSubEntity) := none
  deriving Repr, DecidableEq

/-- An RDAP remark. -/
structure RdapRemark where
  description : Option (List Str) := none
  deriving Repr, DecidableEq

/-- The RDAP JSON body, restricted to the fields the two output paths read.
`type` keeps the source's field name. -/
structure RdapData where
  handle : Option Str := none
  name : Option Str := none
  startAddress : Option Str := none
  endAddress : Option Str := none
  ipVersion : Option Str := none
  type : Option Str := none
  parentHandle : Option Str := none
  country : Option Str := none
  status : Option (List Str) := none
  cidr0_cidrs : Option (List Cidr0) := none
  events : Option (List RdapEvent) := none
  entities : Option (List RdapEntity) := none
  remarks : Option (List RdapRemark) := none
  deriving Repr, DecidableEq

/-- A JS template literal renders `undefined` as the text "undefined". -/
def jsShowOpt (o : Option Str) : Str :=
  match o with
  | some s => s
  | none => "undefined".toList

/-- Same for an optional number. -/
def jsShowOptNat (o : Option Nat) : Str :=
  match o with
  | some n => JS.natToStr n
  | none => "undefined".toList

/-- JS truthiness of an optional string (`undefined` and `''` are falsy). -/
def truthyStr (o : Option Str) : Bool :=
  match o with
  | some s => !s.isEmpty
  | none => false

/-- The template `` `${c.v4prefix}/${c.length}` `` used for each CIDR entry
by `parseRdapResponse` (`src/whois-api-2/server.js`) and by the CIDR-blocks
section of `formatRdapAsText` (`src/unnamed/part_023`): only the `v4prefix`
field is interpolated. -/
def renderCidr0 (c : Cidr0) : Str :=
  jsShowOpt c.prefixV4 ++ ("/".toList) ++ jsShowOptNat c.length

/-- The `result.network` object built by `parseRdapResponse`
(`src/whois-api-2/server.js`). -/
structure RdapNetwork where
  handle : Str
  name : Str
  startAddress : Str
  endAddress : Str
  ipVersion : Str
  type : Str
  parentHandle : Str
  status : List Str
  cidr : Str
  deriving Repr, DecidableEq

/-- The `result.network = {...}` assignment of `parseRdapResponse`:
every scalar defaults to `''` via `|| ''`, `status` to `[]`, and `cidr` is
the comma-joined CIDR rendering (or `''` when `cidr0_cidrs` is absent). -/
def parseRdapResponseNetwork (rdap : RdapData) : RdapNetwork :=
  { handle := rdap.handle.getD []
    name := rdap.name.getD []
    startAddress := rdap.startAddress.getD []
    endAddress := rdap.endAddress.getD []
    ipVersion := rdap.ipVersion.getD []
    type := rdap.type.getD []
    parentHandle := rdap.parentHandle.getD []
    status := rdap.status.getD []
    cidr :=
      match rdap.cidr0_cidrs with
      | some cs => JS.joinSep (", ".toList) (cs.map renderCidr0)
      | none => [] }

/-- `s.split(' - ')[0]`: the prefix before the first occurrence of the
separator (the whole string when it does not occur). -/
def takeBeforeSub (sub : Str) : Str → Str
  | [] => []
  | c :: rest =>
    if JS.startsWith (c :: rest) sub then []
    else c :: takeBeforeSub sub rest

/-- `address.replace(/\n/g, '\n                ')`: sixteen spaces of
continuation indent after each newline. -/
def replaceNlIndent (s : Str) : Str :=
  s.flatMap (fun c => if c = '\n' then '\n' :: ("                ".toList) else [c])

/-- The scan of one vCard for the registrant block: `org` fills the
organization (even when empty), `fn` only while the organization is still
empty, `adr` with a truthy label fills the address; later fields overwrite
as the `forEach` assignments do. -/
def vcardOrgAddr (vcard : List VCF) : Str × Str :=
  vcard.foldl
    (fun acc f =>
      let o := if f.fname = ("org".toList) then f.value
        else if f.fname = ("fn".toList) && acc.1.isEmpty then f.value
        else acc.1
      let a := if f.fname = ("adr".toList) && truthyStr f.label then f.label.getD []
        else acc.2
      (o, a))
    ([], [])

/-- The registrant section of `formatRdapAsText`: for every entity with the
`registrant` role, an `Organization:` line when the organization is
non-empty and an `Address:` line when the address is non-empty. -/
def registrantBlock (acc : List Str) (entity : RdapEntity) : List Str :=
  let roles := entity.roles.getD []
  if ("registrant".toList) ∈ roles then
    let (org, address) := vcardOrgAddr (entity.vcard.getD [])
    acc ++
      (if !org.isEmpty then [("Organization:   ".toList) ++ org] else []) ++
      (if !address.isEmpty then
        [("Address:        ".toList) ++ replaceNlIndent address] else [])
  else acc

/-- The scan of one vCard for the admin/tech block: `fn` fills the name,
`tel` the phone, `adr` with a truthy label the address; later fields
overwrite earlier ones as the `forEach` assignments do. -/
def vcardNamePhoneAddr (vcard : List VCF) : Str × Str × Str :=
  vcard.foldl
    (fun acc f =>
      let n := if f.fname = ("fn".toList) then f.value else acc.1
      let p := if f.fname = ("tel".toList) then f.value else acc.2.1
      let a := if f.fname = ("adr".toList) && truthyStr f.label then f.label.getD []
        else acc.2.2
      (n, p, a))
    ([], [], [])

/-- The scan of one vCard for the abuse block: `fn`, `email`, `adr`. -/
def vcardNameEmailAddr (vcard : List VCF) : Str × Str × Str :=
  vcard.foldl
    (fun acc f =>
      let n := if f.fname = ("fn".toList) then f.value else acc.1
      let e := if f.fname = ("email".toList) then f.value else acc.2.1
      let a := if f.fname = ("adr".toList) && truthyStr f.label then f.label.getD []
        else acc.2.2
      (n, e, a))
    ([], [], [])

/-- The `# Contact Information` header, pushed once before the first
contact block (`hasContacts`). -/
def contactHeader (hasContacts : Bool) : List Str :=
  if hasContacts then [] else [[], ("# Contact Information".toList)]

/-- The abuse sub-entity block of `formatRdapAsText`. -/
def abuseBlock (acc : List Str × Bool) (sub : RdapSubEntity) : List Str × Bool :=
  let subRoles := sub.roles.getD []
  if ("abuse".toList) ∈ subRoles then
    let (n, e, a) := vcardNameEmailAddr (sub.vcard.getD [])
    let header := contactHeader acc.2
    let block := [[], ("Abuse Contact:  ".toList) ++ n] ++
      (if !e.isEmpty then [("Email:          ".toList) ++ e] else []) ++
      (if !a.isEmpty then [("Address:        ".toList) ++ replaceNlIndent a] else [])
    (acc.1 ++ header ++ block, true)
  else acc

/-- One top-level entity of the contact section of `formatRdapAsText`: the
admin/tech block, then the abuse blocks of its nested entities, sharing the
`hasContacts` flag. -/
def entityBlock (acc : List Str × Bool) (entity : RdapEntity) : List Str × Bool :=
  let roles := entity.roles.getD []
  let acc1 :=
    if ("administrative".toList) ∈ roles || ("technical".toList) ∈ roles then
      let (n, p, a) := vcardNamePhoneAddr (entity.vcard.getD [])
      let roleType := if ("administrative".toList) ∈ roles then "Admin".toList
        else "Tech".toList
      let header := contactHeader acc.2
      let block := [[], roleType ++ (" Contact:  ".toList) ++ n] ++
        (if !p.isEmpty then [("Phone:          ".toList) ++ p] else []) ++
        (if !a.isEmpty then [("Address:        ".toList) ++ replaceNlIndent a] else [])
      (acc.1 ++ header ++ block, true)
    else acc
  match entity.entities with
  | none => acc1
  | some subs => subs.foldl abuseBlock acc1

/-- The `lines` array built by `formatRdapAsText` (`src/unnamed/part_023`),
section by section in source order. -/
def formatRdapLines (rdap : RdapData) : List Str :=
  (if truthyStr rdap.startAddress then
    [("Name            ".toList) ++ rdap.startAddress.getD []] else []) ++
  (match rdap.status with
    | some sts => if 0 < sts.length then
        [("Status          ".toList) ++ JS.joinSep (", ".toList) sts] else []
    | none => []) ++
  (if truthyStr rdap.startAddress && truthyStr rdap.endAddress then
    [("CIDR            ".toList) ++ rdap.startAddress.getD [] ++ ("-".toList) ++
      rdap.endAddress.getD []] else []) ++
  (if truthyStr rdap.type then
    [("Net Type        ".toList) ++ rdap.type.getD []] else []) ++
  (if truthyStr rdap.name then
    [("Net Name        ".toList) ++ rdap.name.getD []] else []) ++
  (if truthyStr rdap.handle then
    [("INet Num        ".toList) ++ takeBeforeSub (" - ".toList) (rdap.handle.getD [])]
   else []) ++
  (if truthyStr rdap.startAddress && truthyStr rdap.endAddress then
    [("Net Range       ".toList) ++ rdap.startAddress.getD [] ++ (" - ".toList) ++
      rdap.endAddress.getD []] else []) ++
  [("Whois Server    https://rdap.org".toList)] ++
  (match rdap.events with
    | some evs => evs.foldl (fun acc e =>
        if e.eventAction = some ("registration".toList) then
          acc ++ [("Creation Date   ".toList) ++ jsShowOpt e.eventDate]
        else acc) []
    | none => []) ++
  (match rdap.events with
    | some evs => evs.foldl (fun acc e =>
        if e.eventAction = some ("last changed".toList) then
          acc ++ [("Updated Date    ".toList) ++ jsShowOpt e.eventDate]
        else acc) []
    | none => []) ++
  [("DNSSEC          unsigned".toList)] ++
  [[], ("# Additional Information".toList), []] ++
  (if truthyStr rdap.country then
    [("Country:        ".toList) ++ rdap.country.getD []] else []) ++
  (if truthyStr rdap.parentHandle then
    [("Parent:         ".toList) ++ rdap.parentHandle.getD []] else []) ++
  (if truthyStr rdap.ipVersion then
    [("IP Version:     ".toList) ++ rdap.ipVersion.getD []] else []) ++
  (match rdap.cidr0_cidrs with
    | some cs => if 0 < cs.length then
        [[], ("CIDR Blocks:".toList)] ++ cs.map (fun c => ("  ".toList) ++ renderCidr0 c)
      else []
    | none => []) ++
  [[]] ++
  (match rdap.entities with
    | some ents => ents.foldl registrantBlock []
    | none => []) ++
  (match rdap.entities with
    | some ents => (ents.foldl entityBlock ([], false)).1
    | none => []) ++
  (match rdap.remarks with
    | some rs => if 0 < rs.length then
        [[], ("# Remarks".toList)] ++ rs.flatMap (fun r =>
          match r.description with
          | some descs => descs.map (fun d => ("  ".toList) ++ d)
          | none => [])
      else []
    | none => [])

/-- `formatRdapAsText` returns the lines joined with newlines. -/
def formatRdapAsText (rdap : RdapData) : Str :=
  JS.joinSep ("\n".toList) (formatRdapLines rdap)

/-- The spec's v4 example: one CIDR entry `93.184.216.0/24`. -/
def exV4 : RdapData :=
  { startAddress := some ("93.184.216.0".toList)
    endAddress := some ("93.184.216.255".toList)
    cidr0_cidrs := some [{ prefixV4 := some ("93.184.216.0".toList), length := some 24 }] }

/-- A v6-only CIDR entry: `v6prefix` set, `v4prefix` absent. -/
def exV6 : RdapData :=
  { cidr0_cidrs := some [{ prefixV6 := some ("2001:db8::".toList), length := some 32 }] }

end Rdap

namespace CacheM

/-- `WhoisResult` from `src/lib/types.ts`: the aggregated lookup envelope. -/
structure WhoisResultRec where
  domain : Str
  timestamp : Str
  cached : Bool
  data : Option WS.WhoisData
  providers : List WS.ProviderResponse
  errors : List Str
  deriving Repr, DecidableEq, Inhabited

/-- The value-level state of `CacheService` (`src/lib/cache.ts`): the enabled
flag, the `maxKeys` bound, and the entries in key-insertion order (the order
`cache.keys()` exposes), each with the optional per-entry TTL.  Time, and
hence TTL expiry, is outside the model. -/
structure CacheState where
  enabled : Bool
  maxKeys : Nat
  entries : List (Str × WhoisResultRec × Option Nat)
  deriving Repr, Inhabited

/-- `CacheService.generateKey`. -/
def generateKey (domain : Str) : Str :=
  ("whois:".toList) ++ JS.trim (JS.lower domain)

/-- The stored value under a key, if any (the underlying `NodeCache.get`). -/
def rawCacheLookup (st : CacheState) (key : Str) : Option WhoisResultRec :=
  (st.entries.find? (fun e => e.1 = key)).map (fun e => e.2.1)

/-- `CacheService.get`: `null` when disabled or missing, otherwise the stored
result re-wrapped with `cached: true`. -/
def cacheGet (st : CacheState) (domain : Str) : Option WhoisResultRec :=
  if !st.enabled then none
  else
    match st.entries.find? (fun e => e.1 = generateKey domain) with
    | some e => some { e.2.1 with cached := true }
    | none => none

/-- `CacheService.evictOldest`: delete the first `max(1, floor(10%))` of the
keys in `cache.keys()` order. -/
def evictOldest (st : CacheState) : CacheState :=
  if st.entries.isEmpty then st
  else
    let toDelete := max 1 (st.entries.length / 10)
    { st with entries := st.entries.drop toDelete }

/-- `CacheService.set`: a no-op returning `false` when disabled; otherwise
evict when full, then store (an existing key keeps its position, a new key is
appended, matching the key order of the underlying object). -/
def cacheSet (st : CacheState) (domain : Str) (result : WhoisResultRec)
    (ttl : Option Nat) : Bool × CacheState :=
  if !st.enabled then (false, st)
  else
    let st1 := if st.maxKeys ≤ st.entries.length then evictOldest st else st
    let key := generateKey domain
    let entries2 :=
      if st1.entries.any (fun e => e.1 = key) then
        st1.entries.map (fun e => if e.1 = key then (e.1, result, ttl) else e)
      else st1.entries ++ [(key, result, ttl)]
    (true, { st1 with entries := entries2 })

end CacheM

namespace P11

/-- `ProviderConfig` from `src/lib/types.ts`. -/
structure ProviderCfg where
  enabled : Bool
  priority : Nat
  apiKey : Option Str := none
  deriving Repr, DecidableEq

/-- One provider-query attempt as `queryProvider` observes it: either the
provider call returned a response or it threw (`.error` carries the thrown
message).  The dispatch to the concrete providers (tredis/native/commercial)
is abstracted behind this oracle, indexed by the attempt number. -/
abbrev Attempts := Nat → Except Str WS.ProviderResponse

/-- The retry loop of `queryProvider` (`src/unnamed/part_011`): return a
successful response immediately; return a failed response without retrying
when its error mentions "not configured" or "API key"; otherwise remember
the error and retry, and after `maxRetries` attempts fail with the
accumulated message. -/
def queryProviderGo (name : Str) (attempts : Attempts) (maxRetries : Nat) :
    Nat → Str → WS.ProviderResponse
  | 0, lastError =>
    { provider := name, success := false,
      error := some (("Failed after ".toList) ++ JS.natToStr maxRetries ++
        (" attempts: ".toList) ++ lastError),
      responseTime := 0 }
  | k + 1, lastError =>
    match attempts (maxRetries - k) with
    | .ok response =>
      if response.success then response
      else
        let le := response.error.getD ("Unknown error".toList)
        if JS.includes le ("not configured".toList) ||
            JS.includes le ("API key".toList) then response
        else queryProviderGo name attempts maxRetries k le
    | .error e => queryProviderGo name attempts maxRetries k e

/-- `queryProvider`: the loop from attempt 1 with an empty last error.
`lastError` is ignored until set, matching `let lastError = ''`. -/
def queryProvider (name : Str) (attempts : Attempts) (maxRetries : Nat) :
    WS.ProviderResponse :=
  queryProviderGo name attempts maxRetries maxRetries []

/-- Stable insertion used to model JS `Array.prototype.sort` (stable in
modern engines): an element is placed after every strictly smaller one and
after earlier equal ones. -/
def stableInsert (lt : (Str × ProviderCfg) → (Str × ProviderCfg) → Bool)
    (x : Str × ProviderCfg) : List (Str × ProviderCfg) → List (Str × ProviderCfg)
  | [] => [x]
  | y :: ys => if lt y x then y :: stableInsert lt x ys else x :: y :: ys

/-- `arr.sort((a, b) => a.priority - b.priority)` as a stable sort. -/
def stableSort (lt : (Str × ProviderCfg) → (Str × ProviderCfg) → Bool)
    (l : List (Str × ProviderCfg)) : List (Str × ProviderCfg) :=
  l.foldr (stableInsert lt) []

/-- The fresh (cache-independent) part of `lookupWhois`
(`src/unnamed/part_011`): select the enabled providers sorted by priority,
query them all, collect errors, merge.  Returns the result envelope and
whether any provider was dispatched (false only on the no-providers path). -/
def freshLookup (config : List (Str × ProviderCfg)) (retries : Nat)
    (normalizedDomain : Str) (attemptsFor : Str → Attempts) (timestamp : Str) :
    CacheM.WhoisResultRec × Bool :=
  let enabledProviders := stableSort
    (fun a b => decide (a.2.priority < b.2.priority))
    (config.filter (fun p => p.2.enabled))
  if enabledProviders.isEmpty then
    ({ domain := normalizedDomain, timestamp := timestamp, cached := false,
       data := none, providers := [],
       errors := [("No WHOIS providers enabled".toList)] }, false)
  else
    let responses := enabledProviders.map
      (fun p => queryProvider p.1 (attemptsFor p.1) retries)
    let errors := (responses.filter (fun r => !r.success)).map
      (fun r => r.provider ++ (": ".toList) ++ Rdap.jsShowOpt r.error)
    let mergedData := WS.mergeWhoisData responses
    ({ domain := normalizedDomain, timestamp := timestamp, cached := false,
       data := mergedData, providers := responses, errors := errors }, true)

/-- `lookupWhois` from `src/unnamed/part_011`: validate, consult the cache
unless `force`, dispatch and merge, and cache the result when it carries
data.  The third component records whether providers were dispatched. -/
def lookupWhois (config : List (Str × ProviderCfg)) (retries : Nat)
    (cache : CacheM.CacheState) (force : Bool) (domain : Str)
    (attemptsFor : Str → Attempts) (timestamp : Str) :
    CacheM.WhoisResultRec × CacheM.CacheState × Bool :=
  let normalizedDomain := DU.normalizeDomain domain
  if !(DU.isValidDomain normalizedDomain) then
    ({ domain := normalizedDomain, timestamp := timestamp, cached := false,
       data := none, providers := [],
       errors := [("Invalid domain name".toList)] }, cache, false)
  else
    let cachedResult := if force then none else CacheM.cacheGet cache normalizedDomain
    match cachedResult with
    | some r => (r, cache, false)
    | none =>
      let fr := freshLookup config retries normalizedDomain attemptsFor timestamp
      if fr.1.data.isSome then
        (fr.1, (CacheM.cacheSet cache normalizedDomain fr.1 none).2, fr.2)
      else (fr.1, cache, fr.2)

/-- A one-provider configuration mirroring the defaults (native enabled). -/
def exCfg : List (Str × ProviderCfg) :=
  [(("native".toList), { enabled := true, priority := 1 })]

/-- A provider oracle whose first attempt always succeeds with a minimal
record. -/
def exAttempts : Str → Attempts := fun name _ =>
  .ok { provider := name, success := true,
        data := some { domainName := some ("example.com".toList) },
        responseTime := 1 }

/-- A stored envelope used for the cache-hit example. -/
def exStored : CacheM.WhoisResultRec :=
  { domain := "example.com".toList, timestamp := "T0".toList, cached := false,
    data := some { domainName := some ("example.com".toList) },
    providers := [], errors := [] }

/-- A cache already holding `example.com`. -/
def exCacheHit : CacheM.CacheState :=
  { enabled := true, maxKeys := 1000,
    entries := [(CacheM.generateKey ("example.com".toList), exStored, none)] }

/-- An empty enabled cache. -/
def exCacheEmpty : CacheM.CacheState :=
  { enabled := true, maxKeys := 1000, entries := [] }

end P11

namespace CI

/-- Modelled from the spec and the `useClones: true` configuration comment in
`CacheService`'s constructor (`src/lib/cache.ts`, "Return clones to prevent
external modifications"): an explicit heap of JS objects, addressed by
naturals.  `store` is the cache's private key-to-address map, `client` the
addresses the calling code can reach (its own objects plus everything `get`
returned), `next` the allocation counter. -/
structure Sys where
  heap : Nat → Option CacheM.WhoisResultRec
  next : Nat
  store : Str → Option Nat
  client : List Nat

/-- The observable API events: `set` hands the cache the client's object at
address `a`; `get` asks for a key; `mutate` is the client writing through an
address it holds (the object a previous `get` returned, or one it previously
passed to `set`); `delete`/`clear` are the explicit removal calls. -/
inductive Op where
  | set (k : Str) (a : Nat)
  | get (k : Str)
  | mutate (a : Nat) (v : CacheM.WhoisResultRec)
  | delete (k : Str)
  | clear

/-- One API event.  With `useClones: true`, `set` snapshots the argument into
a fresh private address and `get` hands out a fresh copy (re-tagged with
`cached := true` as `CacheService.get` does); `mutate` can only write through
an address the client holds. -/
def step (s : Sys) (op : Op) : Sys :=
  match op with
  | .mutate a v =>
    if a ∈ s.client then
      { s with heap := fun x => if x = a then some v else s.heap x }
    else s
  | .set k a =>
    match s.heap a with
    | some v =>
      if a ∈ s.client then
        { s with
          heap := fun x => if x = s.next then some v else s.heap x
          store := fun k2 => if k2 = k then some s.next else s.store k2
          next := s.next + 1 }
      else s
    | none => s
  | .get k =>
    match s.store k with
    | some b =>
      match s.heap b with
      | some v =>
        { s with
          heap := fun x => if x = s.next then some { v with cached := true }
            else s.heap x
          client := s.next :: s.client
          next := s.next + 1 }
      | none => s
    | none => s
  | .delete k => { s with store := fun k2 => if k2 = k then none else s.store k2 }
  | .clear => { s with store := fun _ => none }

/-- Run a sequence of API events. -/
def run (s : Sys) : List Op → Sys :=
  fun ops => ops.foldl step s

/-- What a `get k` would observe: the value stored at the cache's private
address for `k`. -/
def cacheValue (s : Sys) (k : Str) : Option CacheM.WhoisResultRec :=
  match s.store k with
  | some b => s.heap b
  | none => none

/-- The aliasing invariant: client-held addresses and the cache's private
addresses are disjoint, and all live addresses are below the allocation
counter. -/
def Inv (s : Sys) : Prop :=
  (∀ a ∈ s.client, a < s.next) ∧
  (∀ k b, s.store k = some b → b < s.next ∧ ¬ (b ∈ s.client))

/-- An event that does not call `set`, `delete` or `clear`: a client-side
mutation or a read. -/
def passive : Op → Prop
  | .mutate _ _ => True
  | .get _ => True
  | _ => False

/-- An example object. -/
def exObj : CacheM.WhoisResultRec :=
  { domain := "example.com".toList, timestamp := "T0".toList, cached := false,
    data := none, providers := [], errors := [] }

/-- A second object, used as the value of a client mutation. -/
def exObj2 : CacheM.WhoisResultRec :=
  { exObj with errors := [("mutated".toList)] }

/-- An example system: the client holds address 0; the cache privately holds
address 1 under one key. -/
def exSys : Sys :=
  { heap := fun x => if x = 0 then some exObj2 else if x = 1 then some exObj else none
    next := 2
    store := fun k => if k = ("whois:example.com".toList) then some 1 else none
    client := [0] }

end CI

-- ===== end of definitions; theorems follow =====

namespace WS

theorem dedupAux_eq_foldl (l : List Str) : ∀ a : List Str,
    dedupAux a l = l.foldl (fun acc x => if x ∈ acc then acc else acc ++ [x]) a := by
  induction l with
  | nil => intro a; rfl
  | cons x l ih =>
    intro a
    by_cases hx : x ∈ a
    · rw [List.foldl_cons, if_pos hx]
      show dedupAux a (x :: l) = _
      rw [dedupAux, if_pos hx, ih a]
    · rw [List.foldl_cons, if_neg hx]
      show dedupAux a (x :: l) = _
      rw [dedupAux, if_neg hx, ih (a ++ [x])]

theorem dedupFirst_eq_dedupAux (l : List Str) : dedupFirst l = dedupAux [] l :=
  (dedupAux_eq_foldl l []).symm

theorem dedupAux_append (xs : List Str) : ∀ (a ys : List Str),
    dedupAux a (xs ++ ys) = dedupAux (dedupAux a xs) ys := by
  induction xs with
  | nil => intro a ys; rfl
  | cons x xs ih =>
    intro a ys
    show dedupAux a (x :: (xs ++ ys)) = dedupAux (dedupAux a (x :: xs)) ys
    rw [dedupAux, dedupAux]
    by_cases hx : x ∈ a
    · rw [if_pos hx, if_pos hx, ih]
    · rw [if_neg hx, if_neg hx, ih]

theorem mem_dedupAux_left {x : Str} (l : List Str) : ∀ {a : List Str}, x ∈ a →
    x ∈ dedupAux a l := by
  induction l with
  | nil => intro a h; exact h
  | cons y l ih =>
    intro a h
    rw [dedupAux]
    by_cases hy : y ∈ a
    · rw [if_pos hy]; exact ih h
    · rw [if_neg hy]; exact ih (List.mem_append_left _ h)

theorem mem_dedupAux_right {x : Str} {l : List Str} (h : x ∈ l) : ∀ a : List Str,
    x ∈ dedupAux a l := by
  induction l with
  | nil => cases h
  | cons y l ih =>
    intro a
    rw [dedupAux]
    rcases List.mem_cons.mp h with rfl | hx
    · by_cases hy : x ∈ a
      · rw [if_pos hy]; exact mem_dedupAux_left l hy
      · rw [if_neg hy]
        exact mem_dedupAux_left l (List.mem_append_right _ (List.mem_singleton.mpr rfl))
    · by_cases hy : y ∈ a
      · rw [if_pos hy]; exact ih hx a
      · rw [if_neg hy]; exact ih hx (a ++ [y])

theorem dedupAux_eq_self {l : List Str} : ∀ {a : List Str}, (∀ x ∈ l, x ∈ a) →
    dedupAux a l = a := by
  induction l with
  | nil => intro a _; rfl
  | cons y l ih =>
    intro a h
    rw [dedupAux, if_pos (h y (List.mem_cons_self _ _))]
    exact ih fun x hx => h x (List.mem_cons_of_mem _ hx)

theorem dedupAux_of_nodup {l : List Str} : ∀ {a : List Str}, (a ++ l).Nodup →
    dedupAux a l = a ++ l := by
  induction l with
  | nil => intro a _; simp [dedupAux]
  | cons y l ih =>
    intro a h
    have hy : y ∉ a := by
      intro hmem
      rcases List.nodup_append.mp h with ⟨_, _, hdisj⟩
      exact hdisj hmem (List.mem_cons_self _ _)
    rw [dedupAux, if_neg hy]
    have h' : ((a ++ [y]) ++ l).Nodup := by simpa using h
    rw [ih h']
    simp

theorem nodup_dedupAux (l : List Str) : ∀ {a : List Str}, a.Nodup → (dedupAux a l).Nodup := by
  induction l with
  | nil => intro a h; exact h
  | cons y l ih =>
    intro a h
    rw [dedupAux]
    by_cases hy : y ∈ a
    · rw [if_pos hy]; exact ih h
    · rw [if_neg hy]
      refine ih ?_
      refine List.nodup_append.mpr ⟨h, List.nodup_singleton _, ?_⟩
      intro x hx hx'
      rcases List.mem_singleton.mp hx' with rfl
      exact hy hx

theorem dedupFirst_nodup (l : List Str) : (dedupFirst l).Nodup := by
  rw [dedupFirst_eq_dedupAux]
  exact nodup_dedupAux l List.nodup_nil

theorem dedupFirst_idem (l : List Str) : dedupFirst (dedupFirst l) = dedupFirst l := by
  rw [dedupFirst_eq_dedupAux (dedupFirst l)]
  have : (([] : List Str) ++ dedupFirst l).Nodup := by simpa using dedupFirst_nodup l
  simpa using dedupAux_of_nodup this

theorem dedupFirst_dedup_append (C l : List Str) :
    dedupFirst (dedupFirst C ++ l) = dedupFirst (C ++ l) := by
  rw [dedupFirst_eq_dedupAux, dedupAux_append, ← dedupFirst_eq_dedupAux,
    dedupFirst_idem, dedupFirst_eq_dedupAux (C ++ l), dedupAux_append,
    ← dedupFirst_eq_dedupAux]

theorem dedupFirst_self_append (l : List Str) : dedupFirst (l ++ l) = dedupFirst l := by
  rw [dedupFirst_eq_dedupAux (l ++ l), dedupAux_append, ← dedupFirst_eq_dedupAux]
  exact dedupAux_eq_self fun x hx => by
    rw [dedupFirst_eq_dedupAux]; exact mem_dedupAux_right hx []

theorem arrFold_some (l : List (Option (List Str))) : ∀ C : List Str,
    l.foldl arrStep (some (dedupFirst C)) =
      some (dedupFirst (C ++ (l.map (fun o => o.getD [])).flatten)) := by
  induction l with
  | nil => intro C; simp
  | cons o l ih =>
    intro C
    cases o with
    | none => simpa [arrStep, mergeArrayAssign, mergeArrayUnion] using ih C
    | some l' =>
      by_cases h : l' = []
      · subst h
        simpa [arrStep, mergeArrayAssign, mergeArrayUnion] using ih C
      · have step : arrStep (some (dedupFirst C)) (some l') =
            some (dedupFirst ((C ++ l'))) := by
          simp [arrStep, mergeArrayAssign, mergeArrayUnion, h,
            dedupFirst_dedup_append]
        simp only [List.foldl_cons, step, ih (C ++ l'), List.map_cons, List.flatten_cons]
        simp [List.append_assoc, Option.getD]

theorem arrFold_none (l : List (Option (List Str))) :
    (l.foldl arrStep none).getD [] = dedupFirst ((l.map (fun o => o.getD [])).flatten) := by
  induction l with
  | nil => rfl
  | cons o l ih =>
    cases o with
    | none => simpa [arrStep, mergeArrayAssign, mergeArrayUnion] using ih
    | some l' =>
      by_cases h : l' = []
      · subst h
        have step : arrStep none (some []) = some (dedupFirst []) := by
          simp [arrStep, mergeArrayAssign, mergeArrayUnion, dedupFirst]
        simp only [List.foldl_cons, step, arrFold_some l []]
        simp
      · have step : arrStep none (some l') = some (dedupFirst l') := by
          simp [arrStep, mergeArrayAssign, mergeArrayUnion, h, dedupFirst_self_append]
        simp only [List.foldl_cons, step, arrFold_some l l']
        simp

theorem scalarFold_set (l : List (Option Str)) {v : Str} (hv : v ≠ []) :
    l.foldl mergeScalar (some v) = some v := by
  induction l with
  | nil => rfl
  | cons d l ih =>
    cases d with
    | none => simpa [mergeScalar] using ih
    | some w => simpa [mergeScalar, hv] using ih

theorem scalarFold_none (l : List (Option Str)) :
    l.foldl mergeScalar none = firstNonEmpty l := by
  induction l with
  | nil => rfl
  | cons d l ih =>
    cases d with
    | none => simpa [mergeScalar, firstNonEmpty] using ih
    | some v =>
      by_cases hv : v = []
      · subst hv; simpa [mergeScalar, firstNonEmpty] using ih
      · simp [mergeScalar, firstNonEmpty, hv, scalarFold_set l hv]

theorem scalarFold_empty (l : List (Option Str)) :
    l.foldl mergeScalar (some []) =
      (match firstNonEmpty l with
        | some v => some v
        | none => some []) := by
  induction l with
  | nil => rfl
  | cons d l ih =>
    cases d with
    | none => simpa [mergeScalar, firstNonEmpty] using ih
    | some v =>
      by_cases hv : v = []
      · subst hv; simpa [mergeScalar, firstNonEmpty] using ih
      · simp [mergeScalar, firstNonEmpty, hv, scalarFold_set l hv]

theorem mem_successesOf {r : ProviderResponse} {rs : List ProviderResponse}
    (h : r ∈ successesOf rs) : r.data.isSome := by
  have := (List.mem_filter.mp h).2
  exact (Bool.and_eq_true _ _ |>.mp this).2

theorem foldl_mergeOne_eq (rs : List ProviderResponse) :
    ∀ init : WhoisData, (∀ r ∈ rs, r.data.isSome) →
      rs.foldl mergeOne init = (rs.filterMap (fun r => r.data)).foldl mergeData init := by
  induction rs with
  | nil => intro init _; rfl
  | cons r rs ih =>
    intro init h
    obtain ⟨d, hd⟩ := Option.isSome_iff_exists.mp (h r (List.mem_cons_self _ _))
    have hstep : mergeOne init r = mergeData init d := by simp [mergeOne, hd]
    simp only [List.foldl_cons, List.filterMap_cons, hd, hstep]
    exact ih _ fun q hq => h q (List.mem_cons_of_mem _ hq)

/-- Field-projection commutation for the merge fold: if projecting `mergeData`
is a `mergeScalar` step on the projections, the projection of the whole fold
is the scalar fold of the projected column. -/
theorem mergedField (proj : WhoisData → Option Str)
    (projStep : ∀ m d, proj (mergeData m d) = mergeScalar (proj m) (proj d))
    (datas : List WhoisData) : ∀ init : WhoisData,
    proj (datas.foldl mergeData init) = (datas.map proj).foldl mergeScalar (proj init) := by
  induction datas with
  | nil => intro init; rfl
  | cons d ds ih =>
    intro init
    simp only [List.foldl_cons, List.map_cons, ih (mergeData init d), projStep]

/-- Array-projection commutation for the merge fold. -/
theorem mergedArray (proj : WhoisData → Option (List Str))
    (projStep : ∀ m d, proj (mergeData m d) = arrStep (proj m) (proj d))
    (datas : List WhoisData) : ∀ init : WhoisData,
    proj (datas.foldl mergeData init) = (datas.map proj).foldl arrStep (proj init) := by
  induction datas with
  | nil => intro init; rfl
  | cons d ds ih =>
    intro init
    simp only [List.foldl_cons, List.map_cons, ih (mergeData init d), projStep]

theorem merged_eq {rs : List ProviderResponse} {m : WhoisData}
    (h : mergeWhoisData rs = some m) :
    m = (datasOf rs).foldl mergeData { domainName := some [] } := by
  unfold mergeWhoisData at h
  by_cases he : (successesOf rs).isEmpty
  · simp [he] at h
  · simp only [he, if_neg, Bool.not_eq_true, ite_false] at h
    have hall : ∀ r ∈ successesOf rs, r.data.isSome := fun r hr => mem_successesOf hr
    rw [foldl_mergeOne_eq _ _ hall] at h
    exact (Option.some_inj.mp h).symm

end WS

/-- C2: `mergeWhoisData` yields `null` exactly when no provider response passed
the success filter; otherwise each scalar field of the merged record is the
first provider's non-empty value (and `mergeScalar` never overwrites a field
that is already set to a non-empty value), while `nameServers` and `status`
are the first-occurrence-deduplicated unions over all successful providers. -/
theorem C2_merge_postcondition (rs : List WS.ProviderResponse) :
    (WS.mergeWhoisData rs = none ↔ WS.successesOf rs = [])
    ∧ (∀ m, WS.mergeWhoisData rs = some m →
        m.domainName =
          some ((WS.firstNonEmpty ((WS.datasOf rs).map (fun d => d.domainName))).getD [])
        ∧ m.registrar = WS.firstNonEmpty ((WS.datasOf rs).map (fun d => d.registrar))
        ∧ m.registrarUrl = WS.firstNonEmpty ((WS.datasOf rs).map (fun d => d.registrarUrl))
        ∧ m.registrarIanaId = WS.firstNonEmpty ((WS.datasOf rs).map (fun d => d.registrarIanaId))
        ∧ m.creationDate = WS.firstNonEmpty ((WS.datasOf rs).map (fun d => d.creationDate))
        ∧ m.updatedDate = WS.firstNonEmpty ((WS.datasOf rs).map (fun d => d.updatedDate))
        ∧ m.expirationDate = WS.firstNonEmpty ((WS.datasOf rs).map (fun d => d.expirationDate))
        ∧ m.registrantName = WS.firstNonEmpty ((WS.datasOf rs).map (fun d => d.registrantName))
        ∧ m.registrantOrganization = WS.firstNonEmpty ((WS.datasOf rs).map (fun d => d.registrantOrganization))
        ∧ m.registrantStreet = WS.firstNonEmpty ((WS.datasOf rs).map (fun d => d.registrantStreet))
        ∧ m.registrantCity = WS.firstNonEmpty ((WS.datasOf rs).map (fun d => d.registrantCity))
        ∧ m.registrantState = WS.firstNonEmpty ((WS.datasOf rs).map (fun d => d.registrantState))
        ∧ m.registrantPostalCode = WS.firstNonEmpty ((WS.datasOf rs).map (fun d => d.registrantPostalCode))
        ∧ m.registrantCountry = WS.firstNonEmpty ((WS.datasOf rs).map (fun d => d.registrantCountry))
        ∧ m.registrantEmail = WS.firstNonEmpty ((WS.datasOf rs).map (fun d => d.registrantEmail))
        ∧ m.registrantPhone = WS.firstNonEmpty ((WS.datasOf rs).map (fun d => d.registrantPhone))
        ∧ m.adminName = WS.firstNonEmpty ((WS.datasOf rs).map (fun d => d.adminName))
        ∧ m.adminOrganization = WS.firstNonEmpty ((WS.datasOf rs).map (fun d => d.adminOrganization))
        ∧ m.adminEmail = WS.firstNonEmpty ((WS.datasOf rs).map (fun d => d.adminEmail))
        ∧ m.adminPhone = WS.firstNonEmpty ((WS.datasOf rs).map (fun d => d.adminPhone))
        ∧ m.techName = WS.firstNonEmpty ((WS.datasOf rs).map (fun d => d.techName))
        ∧ m.techOrganization = WS.firstNonEmpty ((WS.datasOf rs).map (fun d => d.techOrganization))
        ∧ m.techEmail = WS.firstNonEmpty ((WS.datasOf rs).map (fun d => d.techEmail))
        ∧ m.techPhone = WS.firstNonEmpty ((WS.datasOf rs).map (fun d => d.techPhone))
        ∧ m.dnssec = WS.firstNonEmpty ((WS.datasOf rs).map (fun d => d.dnssec))
        ∧ m.rawData = WS.firstNonEmpty ((WS.datasOf rs).map (fun d => d.rawData))
        ∧ m.nameServers.getD [] =
            WS.dedupFirst (((WS.datasOf rs).map (fun d => d.nameServers.getD [])).flatten)
        ∧ m.status.getD [] =
            WS.dedupFirst (((WS.datasOf rs).map (fun d => d.status.getD [])).flatten))
    ∧ (∀ a d, a ≠ none → a ≠ some [] → WS.mergeScalar a d = a) := by
  refine ⟨⟨?_, ?_⟩, ?_, ?_⟩
  · intro h
    by_cases he : WS.successesOf rs = []
    · exact he
    · exfalso
      have hne : (WS.successesOf rs).isEmpty = false := by
        simpa [List.isEmpty_iff] using he
      simp [WS.mergeWhoisData, hne] at h
  · intro he
    simp [WS.mergeWhoisData, he]
  · intro m h
    have hm := WS.merged_eq h
    subst hm
    have hscal : ∀ (proj : WS.WhoisData → Option Str),
        (∀ a b, proj (WS.mergeData a b) = WS.mergeScalar (proj a) (proj b)) →
        proj { domainName := some [] } = none →
        proj ((WS.datasOf rs).foldl WS.mergeData { domainName := some [] }) =
          WS.firstNonEmpty ((WS.datasOf rs).map proj) := by
      intro proj hstep hinit
      have h1 := WS.mergedField proj hstep (WS.datasOf rs) { domainName := some [] }
      rw [hinit, WS.scalarFold_none] at h1
      exact h1
    have hdn := WS.mergedField (fun d => d.domainName) (fun a b => rfl)
      (WS.datasOf rs) { domainName := some [] }
    have hdn2 := WS.scalarFold_empty ((WS.datasOf rs).map (fun d => d.domainName))
    have hdn3 : (match WS.firstNonEmpty ((WS.datasOf rs).map (fun d => d.domainName)) with
        | some v => some v
        | none => some []) =
        some ((WS.firstNonEmpty ((WS.datasOf rs).map (fun d => d.domainName))).getD []) := by
      cases WS.firstNonEmpty ((WS.datasOf rs).map (fun d => d.domainName)) <;> rfl
    have hns0 := WS.mergedArray (fun d => d.nameServers) (fun a b => rfl)
      (WS.datasOf rs) { domainName := some [] }
    have hns1 := congrArg (fun o => o.getD ([] : List Str)) hns0
    have hns2 : WS.dedupFirst ((((WS.datasOf rs).map (fun d => d.nameServers)).map
          (fun o => o.getD [])).flatten) =
        WS.dedupFirst (((WS.datasOf rs).map (fun d => d.nameServers.getD [])).flatten) := by
      rw [List.map_map]; rfl
    have hst0 := WS.mergedArray (fun d => d.status) (fun a b => rfl)
      (WS.datasOf rs) { domainName := some [] }
    have hst1 := congrArg (fun o => o.getD ([] : List Str)) hst0
    have hst2 : WS.dedupFirst ((((WS.datasOf rs).map (fun d => d.status)).map
          (fun o => o.getD [])).flatten) =
        WS.dedupFirst (((WS.datasOf rs).map (fun d => d.status.getD [])).flatten) := by
      rw [List.map_map]; rfl
    exact ⟨hdn.trans (hdn2.trans hdn3),
      hscal (fun d => d.registrar) (fun a b => rfl) rfl,
      hscal (fun d => d.registrarUrl) (fun a b => rfl) rfl,
      hscal (fun d => d.registrarIanaId) (fun a b => rfl) rfl,
      hscal (fun d => d.creationDate) (fun a b => rfl) rfl,
      hscal (fun d => d.updatedDate) (fun a b => rfl) rfl,
      hscal (fun d => d.expirationDate) (fun a b => rfl) rfl,
      hscal (fun d => d.registrantName) (fun a b => rfl) rfl,
      hscal (fun d => d.registrantOrganization) (fun a b => rfl) rfl,
      hscal (fun d => d.registrantStreet) (fun a b => rfl) rfl,
      hscal (fun d => d.registrantCity) (fun a b => rfl) rfl,
      hscal (fun d => d.registrantState) (fun a b => rfl) rfl,
      hscal (fun d => d.registrantPostalCode) (fun a b => rfl) rfl,
      hscal (fun d => d.registrantCountry) (fun a b => rfl) rfl,
      hscal (fun d => d.registrantEmail) (fun a b => rfl) rfl,
      hscal (fun d => d.registrantPhone) (fun a b => rfl) rfl,
      hscal (fun d => d.adminName) (fun a b => rfl) rfl,
      hscal (fun d => d.adminOrganization) (fun a b => rfl) rfl,
      hscal (fun d => d.adminEmail) (fun a b => rfl) rfl,
      hscal (fun d => d.adminPhone) (fun a b => rfl) rfl,
      hscal (fun d => d.techName) (fun a b => rfl) rfl,
      hscal (fun d => d.techOrganization) (fun a b => rfl) rfl,
      hscal (fun d => d.techEmail) (fun a b => rfl) rfl,
      hscal (fun d => d.techPhone) (fun a b => rfl) rfl,
      hscal (fun d => d.dnssec) (fun a b => rfl) rfl,
      hscal (fun d => d.rawData) (fun a b => rfl) rfl,
      hns1.trans ((WS.arrFold_none _).trans hns2),
      hst1.trans ((WS.arrFold_none _).trans hst2)⟩
  · intro a d ha ha2
    cases d with
    | none => rfl
    | some v => simp [WS.mergeScalar, ha, ha2]

/-- Witness for C2: the spec's two-provider example, evaluated concretely —
provider A's `registrar` wins and provider B's `nameServers` are taken. -/
theorem C2_merge_postcondition_witness :
    WS.exMerged.registrar =
      WS.firstNonEmpty ((WS.datasOf WS.exRs).map (fun d => d.registrar))
    ∧ WS.exMerged.nameServers.getD [] =
      WS.dedupFirst (((WS.datasOf WS.exRs).map (fun d => d.nameServers.getD [])).flatten) := by
  have h := (C2_merge_postcondition WS.exRs).2.1 WS.exMerged (by decide)
  obtain ⟨h0, h1, h2, h3, h4, h5, h6, h7, h8, h9, h10, h11, h12, h13, h14, h15, h16,
    h17, h18, h19, h20, h21, h22, h23, h24, h25, h26, h27⟩ := h
  exact ⟨h1, h26⟩

/-- C9 counterexample: the claim quantifies over every input string, but on
the empty string `parseDate` returns `undefined` (the `if (!dateStr)` guard
treats `''` as falsy), not the original string unchanged. -/
theorem C9_counterexample :
    DU.parseDate DU.exJsDate DU.exToIso (some []) = none ∧
      (none : Option Str) ≠ some [] := by
  exact ⟨rfl, by decide⟩

/-- C9 (amended): for every non-empty input string, `parseDate` never throws;
it returns the ISO-8601 rendering when the input parses as a date and the
original string unchanged otherwise, while an empty or missing input yields
`undefined`. -/
theorem C9_parseDate_total (jsDate : Str → Option Int) (toIso : Int → Str)
    (s : Str) (hs : s ≠ []) :
    (∀ t, jsDate s = some t →
      DU.parseDate jsDate toIso (some s) = some (toIso t))
    ∧ (jsDate s = none → DU.parseDate jsDate toIso (some s) = some s)
    ∧ DU.parseDate jsDate toIso none = none := by
  refine ⟨?_, ?_, rfl⟩
  · intro t ht
    simp [DU.parseDate, hs, ht]
  · intro ht
    simp [DU.parseDate, hs, ht]

/-- Witness for C9: a date the concrete parser recognises is rendered in ISO
form, and an unparseable string comes back unchanged. -/
theorem C9_parseDate_total_witness :
    DU.parseDate DU.exJsDate DU.exToIso (some ("1995-08-14".toList)) =
      some ("1995-08-14T00:00:00.000Z".toList)
    ∧ DU.parseDate DU.exJsDate DU.exToIso (some ("not-a-date".toList)) =
      some ("not-a-date".toList) := by
  constructor
  · exact (C9_parseDate_total DU.exJsDate DU.exToIso ("1995-08-14".toList)
      (by decide)).1 808358400000 (by decide)
  · exact (C9_parseDate_total DU.exJsDate DU.exToIso ("not-a-date".toList)
      (by decide)).2.1 (by decide)

namespace Native

theorem trim_eq_nil_all_ws {l : Str} (h : JS.trim l = []) : ∀ c ∈ l, JS.isWs c = true := by
  unfold JS.trim at h
  rw [List.reverse_eq_nil_iff] at h
  have h2 : ∀ c ∈ (l.dropWhile JS.isWs).reverse, JS.isWs c = true :=
    List.dropWhile_eq_nil_iff.mp h
  intro c hc
  have hsplit : c ∈ l.takeWhile JS.isWs ++ l.dropWhile JS.isWs := by
    rw [List.takeWhile_append_dropWhile]; exact hc
  rcases List.mem_append.mp hsplit with h3 | h3
  · exact List.mem_takeWhile_imp h3
  · exact h2 c (List.mem_reverse.mpr h3)

theorem isWs_toLower {c : Char} (h : JS.isWs c = true) : Char.toLower c = c := by
  simp only [JS.isWs, Bool.or_eq_true, decide_eq_true_eq] at h
  rcases h with ((((h | h) | h) | h) | h) | h <;> subst h <;> decide

theorem trim_ne_nil_of_includes (c0 : Char) {raw p : Str}
    (h : JS.includes (JS.lower raw) p = true) (hc : c0 ∈ p)
    (hw : JS.isWs c0 = false) : ¬ (JS.trim raw = []) := by
  intro htrim
  have hinf : p <:+: JS.lower raw := of_decide_eq_true h
  have hmem : c0 ∈ JS.lower raw := hinf.subset hc
  rcases List.mem_map.mp hmem with ⟨c, hcl, hlow⟩
  have hwsc := trim_eq_nil_all_ws htrim c hcl
  rw [isWs_toLower hwsc] at hlow
  subst hlow
  rw [hwsc] at hw
  cases hw

theorem isEmpty_false_of_trim {raw : Str} (h : ¬ (JS.trim raw = [])) :
    (JS.trim raw).isEmpty = false := by
  rw [Bool.eq_false_iff]
  intro hb
  exact h (List.isEmpty_iff.mp hb)

end Native

/-- C3: whenever the lowercased raw WHOIS response contains "no match",
"not found", "no entries found" or "no data found", `queryNativeWhois`
returns `success = false` with the dedicated Turkish not-found error
("domain whois veritabanında bulunamadı"), never the generic empty-response
or parse-failure errors. -/
theorem C3_notfound_classification (jsDate : Str → Option Int)
    (toIso : Int → Str) (raw domain : Str) (rt : Nat)
    (h : JS.includes (JS.lower raw) ("no match".toList) = true ∨
         JS.includes (JS.lower raw) ("not found".toList) = true ∨
         JS.includes (JS.lower raw) ("no entries found".toList) = true ∨
         JS.includes (JS.lower raw) ("no data found".toList) = true) :
    Native.queryNativeWhois jsDate toIso (.ok raw) domain rt =
      { provider := "native".toList, success := false, data := none,
        error := some ("domain whois veritabanında bulunamadı".toList),
        responseTime := rt } := by
  have htrim : ¬ (JS.trim raw = []) := by
    rcases h with h|h|h|h
    · exact Native.trim_ne_nil_of_includes 'n' h (by decide) (by decide)
    · exact Native.trim_ne_nil_of_includes 'n' h (by decide) (by decide)
    · exact Native.trim_ne_nil_of_includes 'n' h (by decide) (by decide)
    · exact Native.trim_ne_nil_of_includes 'n' h (by decide) (by decide)
  have hempty := Native.isEmpty_false_of_trim htrim
  have hor : (JS.includes (JS.lower raw) ("no match".toList) ||
      JS.includes (JS.lower raw) ("not found".toList) ||
      JS.includes (JS.lower raw) ("no entries found".toList) ||
      JS.includes (JS.lower raw) ("no data found".toList)) = true := by
    rcases h with h|h|h|h <;> rw [h] <;> simp
  simp only [Native.queryNativeWhois]
  rw [hempty, hor]
  simp

/-- Witness for C3: the spec's "No match for domain" block is classified as
the authoritative not-found result. -/
theorem C3_notfound_classification_witness :
    Native.queryNativeWhois DU.exJsDate DU.exToIso
        (.ok ("No match for domain".toList)) ("example.com".toList) 3 =
      { provider := "native".toList, success := false, data := none,
        error := some ("domain whois veritabanında bulunamadı".toList),
        responseTime := 3 } :=
  C3_notfound_classification DU.exJsDate DU.exToIso ("No match for domain".toList)
    ("example.com".toList) 3 (Or.inl (by decide))

/-- C7: a non-empty raw response that is not a not-found answer and parses
to zero recognized fields is downgraded rather than discarded — returned as
`success = true` carrying only the raw text when it exceeds the 100-character
threshold, and as `success = false` with the no-useful-data error otherwise. -/
theorem C7_parse_anomaly (jsDate : Str → Option Int) (toIso : Int → Str)
    (raw domain : Str) (rt : Nat)
    (h1 : ¬ (JS.trim raw = []))
    (h2 : JS.includes (JS.lower raw) ("no match".toList) = false ∧
          JS.includes (JS.lower raw) ("not found".toList) = false ∧
          JS.includes (JS.lower raw) ("no entries found".toList) = false ∧
          JS.includes (JS.lower raw) ("no data found".toList) = false)
    (h3 : Native.noRecognizedFields
        (Native.parseWhoisText jsDate toIso raw domain) = true) :
    (100 < raw.length →
      Native.queryNativeWhois jsDate toIso (.ok raw) domain rt =
        { provider := "native".toList, success := true,
          data := some { Native.parseWhoisText jsDate toIso raw domain with
                         rawData := some raw },
          error := none, responseTime := rt })
    ∧ (raw.length ≤ 100 →
      Native.queryNativeWhois jsDate toIso (.ok raw) domain rt =
        { provider := "native".toList, success := false, data := none,
          error := some ("whois yanıtı kullanışlı veri içermiyor".toList),
          responseTime := rt }) := by
  have hempty := Native.isEmpty_false_of_trim h1
  obtain ⟨i1, i2, i3, i4⟩ := h2
  have hor : (JS.includes (JS.lower raw) ("no match".toList) ||
      JS.includes (JS.lower raw) ("not found".toList) ||
      JS.includes (JS.lower raw) ("no entries found".toList) ||
      JS.includes (JS.lower raw) ("no data found".toList)) = false := by
    rw [i1, i2, i3, i4]; rfl
  have hreg : (Native.parseWhoisText jsDate toIso raw domain).registrar = none := by
    have h4 := h3
    simp only [Native.noRecognizedFields, Bool.and_eq_true, decide_eq_true_eq] at h4
    tauto
  have hcre : (Native.parseWhoisText jsDate toIso raw domain).creationDate = none := by
    have h4 := h3
    simp only [Native.noRecognizedFields, Bool.and_eq_true, decide_eq_true_eq] at h4
    tauto
  have hns : (Native.parseWhoisText jsDate toIso raw domain).nameServers = none := by
    have h4 := h3
    simp only [Native.noRecognizedFields, Bool.and_eq_true, decide_eq_true_eq] at h4
    tauto
  have hcond : (Native.falsyStr (Native.parseWhoisText jsDate toIso raw domain).registrar &&
      Native.falsyStr (Native.parseWhoisText jsDate toIso raw domain).creationDate &&
      decide ((Native.parseWhoisText jsDate toIso raw domain).nameServers = none)) = true := by
    rw [hreg, hcre, hns]
    rfl
  constructor
  · intro hlen
    simp only [Native.queryNativeWhois]
    rw [hempty, hor, hcond]
    simp [hlen]
  · intro hlen
    simp only [Native.queryNativeWhois]
    rw [hempty, hor, hcond]
    simp [Nat.not_lt.mpr hlen]

/-- Witness for C7: a 101-character response with no recognized fields is
returned as a raw-only success. -/
theorem C7_parse_anomaly_witness :
    Native.queryNativeWhois DU.exJsDate DU.exToIso (.ok Native.exRaw101)
        ("example.com".toList) 4 =
      { provider := "native".toList, success := true,
        data := some { Native.parseWhoisText DU.exJsDate DU.exToIso
                         Native.exRaw101 ("example.com".toList) with
                       rawData := some Native.exRaw101 },
        error := none, responseTime := 4 } :=
  (C7_parse_anomaly DU.exJsDate DU.exToIso Native.exRaw101 ("example.com".toList) 4
    (by decide) ⟨by decide, by decide, by decide, by decide⟩ (by decide)).1 (by decide)

/-- C6: for any domain that does not end in ".tr" (case-insensitively),
`queryTredis` immediately returns `success = false` with the descriptive
only-.tr error, with the same result for every possible socket outcome and
without touching the socket (the network flag stays `false`). -/
theorem C6_tr_precondition (jsDate : Str → Option Int) (toIso : Int → Str)
    (socketOutcome : Except Str Str) (domain : Str) (rt : Nat)
    (h : Tredis.isTrDomain domain = false) :
    Tredis.queryTredis jsDate toIso socketOutcome domain rt =
      ({ provider := "tredis".toList, success := false, data := none,
         error := some ("TREDIS only supports .tr domains".toList),
         responseTime := rt }, false) := by
  simp only [Tredis.queryTredis]
  rw [h]
  simp

/-- Witness for C6: `example.com` is rejected without a socket call, whatever
the socket would have answered. -/
theorem C6_tr_precondition_witness :
    Tredis.queryTredis DU.exJsDate DU.exToIso
        (.ok ("irrelevant".toList)) ("example.com".toList) 2 =
      ({ provider := "tredis".toList, success := false, data := none,
         error := some ("TREDIS only supports .tr domains".toList),
         responseTime := 2 }, false) :=
  C6_tr_precondition DU.exJsDate DU.exToIso (.ok ("irrelevant".toList))
    ("example.com".toList) 2 (by decide)

namespace PM

theorem scanNext_none_of_all_unready {α : Type} {ps : List (ProviderM α)}
    (h : ∀ p ∈ ps, isReady p = false) :
    ∀ (fuel idx : Nat) (tried : List Str), scanNext ps fuel idx tried = none := by
  intro fuel
  induction fuel with
  | zero => intro idx tried; rfl
  | succ fuel ih =>
    intro idx tried
    cases hget : ps[idx]? with
    | none => simp [scanNext, hget]
    | some p =>
      have hp : p ∈ ps := List.getElem?_mem hget
      have hr := h p hp
      by_cases ht : p.name ∈ tried
      · simp [scanNext, hget, ht, ih]
      · simp [scanNext, hget, ht, hr, ih]

theorem scanNext_sound {α : Type} {ps : List (ProviderM α)} :
    ∀ {fuel idx : Nat} {tried : List Str} {p : ProviderM α} {j idx2 : Nat},
      scanNext ps fuel idx tried = some (p, j, idx2) →
      ¬ (p.name ∈ tried) ∧ isReady p = true := by
  intro fuel
  induction fuel with
  | zero => intro idx tried p j idx2 h; cases h
  | succ fuel ih =>
    intro idx tried p j idx2 h
    rw [scanNext] at h
    cases hget : ps[idx]? with
    | none => rw [hget] at h; cases h
    | some q =>
      rw [hget] at h
      dsimp only at h
      by_cases ht : q.name ∈ tried
      · rw [if_pos ht] at h
        exact ih h
      · rw [if_neg ht] at h
        by_cases hr : isReady q
        · rw [if_pos hr] at h
          obtain ⟨rfl, rfl, rfl⟩ : q = p ∧ idx = j ∧ (idx + 1) % ps.length = idx2 := by
            cases h; exact ⟨rfl, rfl, rfl⟩
          exact ⟨ht, hr⟩
        · rw [if_neg hr] at h
          exact ih h

end PM

/-- C5: (1) when every provider is rate-limited and the manager is non-empty,
`execute` fails with the distinct "No providers available (rate limited)"
error rather than the generic all-providers-failed error; (2) the selection
loop only ever returns a provider that is ready and not yet tried for this
query; (3) after a selected provider's lookup fails, the loop continues with
that provider marked tried (and its usage incremented) and the next eligible
provider is selected from the remainder. -/
theorem C5_provider_manager (α : Type) (ps : List (PM.ProviderM α)) (idx : Nat) :
    ((∀ p ∈ ps, PM.isReady p = false) → ps ≠ [] →
      PM.execute ps idx = .error ("No providers available (rate limited)".toList))
    ∧ (∀ (fuel : Nat) (tried : List Str) (p : PM.ProviderM α) (j idx2 : Nat),
        PM.scanNext ps fuel idx tried = some (p, j, idx2) →
        ¬ (p.name ∈ tried) ∧ PM.isReady p = true)
    ∧ (∀ (tried : List Str) (le : Option Str) (i : Nat) (p : PM.ProviderM α)
        (j idx2 : Nat) (e : Str),
        PM.getNextProvider ps idx tried = some (p, j, idx2) →
        p.lookupResult = .error e →
        PM.executeLoop ps idx tried le (i + 1) =
          PM.executeLoop (ps.set j (PM.increment p)) idx2 (p.name :: tried) (some e) i) := by
  refine ⟨?_, ?_, ?_⟩
  · intro hall hne
    cases ps with
    | nil => exact absurd rfl hne
    | cons q qs =>
      show PM.executeLoop (q :: qs) idx [] none ((q :: qs).length) = _
      rw [List.length_cons, PM.executeLoop, PM.getNextProvider,
        PM.scanNext_none_of_all_unready hall]
      rfl
  · intro fuel tried p j idx2 h
    exact PM.scanNext_sound h
  · intro tried le i p j idx2 e hsel herr
    rw [PM.executeLoop, hsel]
    dsimp only
    rw [herr]

/-- Witness for C5: with two exhausted providers, `execute` yields exactly
the distinct rate-limited error. -/
theorem C5_provider_manager_witness :
    PM.execute PM.exLimited 0 =
      .error ("No providers available (rate limited)".toList) :=
  (C5_provider_manager Nat PM.exLimited 0).1 (by decide) (by simp [PM.exLimited])

/-- C1: starting from a store with no entry for the query key, after
`lookupWhoisWithCache` returns, the store holds an entry for the key exactly
when the lookup succeeded or failed with a confirmed (non-transient)
not-found error; a success is stored under the default TTL, a confirmed
not-found under the strictly smaller `NOT_FOUND_CACHE_TTL` (3600 s), and a
result with a transient error (timeout, rate limit, connection, refused) is
never present after the call. -/
theorem C1_cache_policy (α : Type) (defaultTtl : Nat) (st : NW.RedisState α)
    (domain : Str) (execOutcome : Except Str α) (dur : Nat)
    (hmiss : st (("whois:".toList) ++ JS.trim (JS.lower domain)) = none)
    (httl : NW.NOT_FOUND_CACHE_TTL < defaultTtl) :
    (((NW.lookupWhoisWithCache α defaultTtl st domain execOutcome dur).2
        (("whois:".toList) ++ JS.trim (JS.lower domain))).isSome = true ↔
      ((NW.lookupWhois α execOutcome dur).status = true ∨
        (NW.isNotFoundErrorOf (NW.lookupWhois α execOutcome dur) = true ∧
         NW.isTransientErrorOf (NW.lookupWhois α execOutcome dur) = false)))
    ∧ ((NW.lookupWhois α execOutcome dur).status = true →
        (NW.lookupWhoisWithCache α defaultTtl st domain execOutcome dur).2
            (("whois:".toList) ++ JS.trim (JS.lower domain)) =
          some (NW.lookupWhois α execOutcome dur, defaultTtl))
    ∧ (NW.isNotFoundErrorOf (NW.lookupWhois α execOutcome dur) = true →
       NW.isTransientErrorOf (NW.lookupWhois α execOutcome dur) = false →
        (NW.lookupWhoisWithCache α defaultTtl st domain execOutcome dur).2
            (("whois:".toList) ++ JS.trim (JS.lower domain)) =
          some (NW.lookupWhois α execOutcome dur, NW.NOT_FOUND_CACHE_TTL) ∧
        NW.NOT_FOUND_CACHE_TTL < defaultTtl)
    ∧ (NW.isTransientErrorOf (NW.lookupWhois α execOutcome dur) = true →
        (NW.lookupWhoisWithCache α defaultTtl st domain execOutcome dur).2
            (("whois:".toList) ++ JS.trim (JS.lower domain)) = none) := by
  have hmiss2 : NW.getJsonRedisValue st (("whois:".toList) ++ JS.trim (JS.lower domain)) = none := by
    unfold NW.getJsonRedisValue
    rw [hmiss]
    rfl
  cases execOutcome with
  | ok v =>
    simp at hmiss2
    simp [NW.lookupWhoisWithCache, NW.lookupWhois, hmiss2, NW.isNotFoundErrorOf,
      NW.isTransientErrorOf, NW.setJsonRedisValue]
  | error e =>
    simp at hmiss2 hmiss
    by_cases hnf : NW.isNotFoundErrorOf (NW.lookupWhois α (.error e) dur) = true
    all_goals by_cases htr : NW.isTransientErrorOf (NW.lookupWhois α (.error e) dur) = true
    all_goals simp [NW.lookupWhois] at hnf htr
    all_goals
      simp [NW.lookupWhoisWithCache, NW.lookupWhois, hmiss2, hnf, htr,
        NW.setJsonRedisValue, NW.setJsonRedisValueWithTTL, hmiss, httl]

/-- Witness for C1: on an empty store, a successful lookup for
`Example.COM` ends up cached under the normalized key with the default TTL
(86400 here), which exceeds the 3600-second not-found TTL. -/
theorem C1_cache_policy_witness :
    (NW.lookupWhoisWithCache Nat 86400 (NW.emptyRedis Nat)
        ("Example.COM".toList) (.ok 7) 5).2
        (("whois:".toList) ++ JS.trim (JS.lower ("Example.COM".toList))) =
      some (NW.lookupWhois Nat (.ok 7) 5, 86400) :=
  (C1_cache_policy Nat 86400 (NW.emptyRedis Nat) ("Example.COM".toList)
    (.ok 7) 5 rfl (by decide)).2.1 rfl

/-- C8 counterexample: the claim says the rendered prefix is taken from the
entry's `v4prefix`/`v6prefix` field, but both cited code paths interpolate
only `v4prefix`: an entry carrying only `v6prefix: "2001:db8::"` with length
32 renders as `"undefined/32"`, not `"2001:db8::/32"`. -/
theorem C8_counterexample :
    (Rdap.parseRdapResponseNetwork Rdap.exV6).cidr = "undefined/32".toList ∧
    ¬ ((Rdap.parseRdapResponseNetwork Rdap.exV6).cidr = "2001:db8::/32".toList) := by
  decide

/-- C8 (amended): each entry of `cidr0_cidrs` is rendered as its `v4prefix`
field followed by "/" and its `length` field — the `v6prefix` field is never
consulted, so an entry without `v4prefix` renders the literal text
"undefined" as its prefix.  Both output paths use this rendering: the
structured parse joins the entries into `network.cidr` with ", ", and the
plain-text formatter emits one indented line per entry; in particular the
entry `{v4prefix:"93.184.216.0", length:24}` renders as "93.184.216.0/24"
in both. -/
theorem C8_cidr_rendering :
    (∀ (c : Rdap.Cidr0) (p : Str) (n : Nat), c.prefixV4 = some p →
      c.length = some n → Rdap.renderCidr0 c = p ++ ("/".toList) ++ JS.natToStr n)
    ∧ (∀ (rdap : Rdap.RdapData) (cs : List Rdap.Cidr0), rdap.cidr0_cidrs = some cs →
        (Rdap.parseRdapResponseNetwork rdap).cidr =
          JS.joinSep (", ".toList) (cs.map Rdap.renderCidr0))
    ∧ (Rdap.parseRdapResponseNetwork Rdap.exV4).cidr = "93.184.216.0/24".toList
    ∧ ("  93.184.216.0/24".toList) ∈ Rdap.formatRdapLines Rdap.exV4 := by
  refine ⟨?_, ?_, by decide, by decide⟩
  · intro c p n hp hn
    simp [Rdap.renderCidr0, Rdap.jsShowOpt, Rdap.jsShowOptNat, hp, hn]
  · intro rdap cs h
    simp [Rdap.parseRdapResponseNetwork, h]

/-- Witness for C8: the spec's entry rendered concretely. -/
theorem C8_cidr_rendering_witness :
    Rdap.renderCidr0 { prefixV4 := some ("93.184.216.0".toList), length := some 24 } =
      ("93.184.216.0".toList) ++ ("/".toList) ++ JS.natToStr 24 :=
  C8_cidr_rendering.1 { prefixV4 := some ("93.184.216.0".toList), length := some 24 }
    ("93.184.216.0".toList) 24 rfl rfl

namespace CacheM

theorem find_overwrite {v : WhoisResultRec} {t : Option Nat} {key : Str} :
    ∀ {l : List (Str × WhoisResultRec × Option Nat)},
      l.any (fun e => e.1 = key) = true →
      (l.map (fun e => if e.1 = key then (e.1, v, t) else e)).find?
          (fun e => e.1 = key) = some (key, v, t) := by
  intro l
  induction l with
  | nil => intro h; cases h
  | cons e l ih =>
    intro h
    by_cases he : e.1 = key
    · simp only [List.map_cons, if_pos he, List.find?_cons]
      rw [he]
      simp
    · simp only [List.map_cons, if_neg he, List.find?_cons]
      have hpred : (decide (e.1 = key)) = false := by simp [he]
      rw [hpred]
      refine ih ?_
      simp only [List.any_cons] at h
      simpa [he] using h

theorem find_append_new {v : WhoisResultRec} {t : Option Nat} {key : Str} :
    ∀ {l : List (Str × WhoisResultRec × Option Nat)},
      l.any (fun e => e.1 = key) = false →
      (l ++ [(key, v, t)]).find? (fun e => e.1 = key) = some (key, v, t) := by
  intro l
  induction l with
  | nil => intro _; simp
  | cons e l ih =>
    intro h
    simp only [List.any_cons, Bool.or_eq_false_iff] at h
    obtain ⟨he, hl⟩ := h
    simp only [List.cons_append, List.find?_cons, he]
    exact ih hl

theorem rawCacheLookup_set {st : CacheState} (henabled : st.enabled = true)
    (domain : Str) (v : WhoisResultRec) (ttl : Option Nat) :
    rawCacheLookup (cacheSet st domain v ttl).2 (generateKey domain) = some v := by
  unfold cacheSet
  rw [henabled]
  simp only [Bool.not_true, Bool.false_eq_true, if_false]
  by_cases hany : (if st.maxKeys ≤ st.entries.length then evictOldest st
      else st).entries.any (fun e => e.1 = generateKey domain) = true
  · simp only [hany, if_true, rawCacheLookup, find_overwrite hany, Option.map_some]
    rfl
  · have hany2 : (if st.maxKeys ≤ st.entries.length then evictOldest st
        else st).entries.any (fun e => e.1 = generateKey domain) = false :=
      Bool.eq_false_iff.mpr hany
    simp only [hany2, Bool.false_eq_true, if_false, rawCacheLookup,
      find_append_new hany2, Option.map_some]
    rfl

end CacheM

/-- C4: for a valid domain — (1) without `force`, a cache hit is answered
from the store with `cached = true`, an unchanged cache and no provider
dispatched; (2) with `force`, the result is the fresh lookup whatever the
cache held (the read is skipped), and the cache is updated exactly when the
fresh result carries data; (3) with `force` and an enabled cache, a fresh
result that carries data is afterwards stored under the normalized key. -/
theorem C4_orchestrator_cache (config : List (Str × P11.ProviderCfg))
    (retries : Nat) (cache : CacheM.CacheState) (domain : Str)
    (attemptsFor : Str → P11.Attempts) (timestamp : Str)
    (hval : DU.isValidDomain (DU.normalizeDomain domain) = true) :
    (∀ stored, cache.enabled = true →
      cache.entries.find?
          (fun e => e.1 = CacheM.generateKey (DU.normalizeDomain domain)) =
        some stored →
      P11.lookupWhois config retries cache false domain attemptsFor timestamp =
        ({ stored.2.1 with cached := true }, cache, false))
    ∧ (P11.lookupWhois config retries cache true domain attemptsFor timestamp =
        ((P11.freshLookup config retries (DU.normalizeDomain domain)
            attemptsFor timestamp).1,
         (if (P11.freshLookup config retries (DU.normalizeDomain domain)
              attemptsFor timestamp).1.data.isSome then
            (CacheM.cacheSet cache (DU.normalizeDomain domain)
              (P11.freshLookup config retries (DU.normalizeDomain domain)
                attemptsFor timestamp).1 none).2
          else cache),
         (P11.freshLookup config retries (DU.normalizeDomain domain)
            attemptsFor timestamp).2))
    ∧ (cache.enabled = true →
       (P11.freshLookup config retries (DU.normalizeDomain domain)
          attemptsFor timestamp).1.data.isSome = true →
       CacheM.rawCacheLookup
           (P11.lookupWhois config retries cache true domain attemptsFor
             timestamp).2.1
           (CacheM.generateKey (DU.normalizeDomain domain)) =
         some (P11.freshLookup config retries (DU.normalizeDomain domain)
           attemptsFor timestamp).1) := by
  have hbody : P11.lookupWhois config retries cache true domain attemptsFor timestamp =
      ((P11.freshLookup config retries (DU.normalizeDomain domain)
          attemptsFor timestamp).1,
       (if (P11.freshLookup config retries (DU.normalizeDomain domain)
            attemptsFor timestamp).1.data.isSome then
          (CacheM.cacheSet cache (DU.normalizeDomain domain)
            (P11.freshLookup config retries (DU.normalizeDomain domain)
              attemptsFor timestamp).1 none).2
        else cache),
       (P11.freshLookup config retries (DU.normalizeDomain domain)
          attemptsFor timestamp).2) := by
    by_cases hd : (P11.freshLookup config retries (DU.normalizeDomain domain)
        attemptsFor timestamp).1.data.isSome = true
    · simp [P11.lookupWhois, hval, hd]
    · have hd2 := Bool.eq_false_iff.mpr hd
      simp [P11.lookupWhois, hval, hd2]
  refine ⟨?_, hbody, ?_⟩
  · intro stored hen hfind
    simp [P11.lookupWhois, hval, CacheM.cacheGet, hen, hfind]
  · intro hen hd
    rw [hbody]
    simp only [hd, if_true]
    exact CacheM.rawCacheLookup_set hen (DU.normalizeDomain domain) _ none

/-- Witness for C4: the cache-hit path for `Example.com` returns the stored
envelope with `cached = true` without dispatching providers, and the forced
path on the same cache writes the fresh result back. -/
theorem C4_orchestrator_cache_witness :
    (P11.lookupWhois P11.exCfg 2 P11.exCacheHit false ("Example.com".toList)
        P11.exAttempts ("T1".toList) =
      ({ P11.exStored with cached := true }, P11.exCacheHit, false))
    ∧ CacheM.rawCacheLookup
        (P11.lookupWhois P11.exCfg 2 P11.exCacheHit true ("Example.com".toList)
          P11.exAttempts ("T1".toList)).2.1
        (CacheM.generateKey (DU.normalizeDomain ("Example.com".toList))) =
      some (P11.freshLookup P11.exCfg 2 (DU.normalizeDomain ("Example.com".toList))
        P11.exAttempts ("T1".toList)).1 := by
  constructor
  · exact (C4_orchestrator_cache P11.exCfg 2 P11.exCacheHit ("Example.com".toList)
      P11.exAttempts ("T1".toList) (by decide)).1
      (CacheM.generateKey ("example.com".toList), P11.exStored, none)
      (by decide) (by decide)
  · exact (C4_orchestrator_cache P11.exCfg 2 P11.exCacheHit ("Example.com".toList)
      P11.exAttempts ("T1".toList) (by decide)).2.2 (by decide) (by decide)

namespace CI

theorem inv_step {s : Sys} (h : Inv s) (op : Op) : Inv (step s op) := by
  obtain ⟨hc, hs⟩ := h
  cases op with
  | mutate a v =>
    by_cases ha : a ∈ s.client
    · simp only [step, ha, if_true]
      exact ⟨hc, hs⟩
    · simp only [step, ha, if_false]
      exact ⟨hc, hs⟩
  | set k a =>
    cases hv : s.heap a with
    | none =>
      simp only [step, hv]
      exact ⟨hc, hs⟩
    | some v =>
      by_cases ha : a ∈ s.client
      · simp only [step, hv, ha, if_true]
        refine ⟨?_, ?_⟩
        · intro x hx
          exact Nat.lt_succ_of_lt (hc x hx)
        · intro k2 b hb
          dsimp only at hb ⊢
          by_cases hk : k2 = k
          · rw [if_pos hk] at hb
            obtain rfl : s.next = b := Option.some_inj.mp hb
            refine ⟨Nat.lt_succ_self _, ?_⟩
            intro hmem
            exact Nat.lt_irrefl _ (hc _ hmem)
          · rw [if_neg hk] at hb
            obtain ⟨h1, h2⟩ := hs k2 b hb
            exact ⟨Nat.lt_succ_of_lt h1, h2⟩
      · simp only [step, hv, ha, if_false]
        exact ⟨hc, hs⟩
  | get k =>
    cases hsk : s.store k with
    | none =>
      simp only [step, hsk]
      exact ⟨hc, hs⟩
    | some b =>
      cases hv : s.heap b with
      | none =>
        simp only [step, hsk, hv]
        exact ⟨hc, hs⟩
      | some v =>
        simp only [step, hsk, hv]
        refine ⟨?_, ?_⟩
        · intro x hx
          rcases List.mem_cons.mp hx with rfl | hx2
          · exact Nat.lt_succ_self _
          · exact Nat.lt_succ_of_lt (hc x hx2)
        · intro k2 c hb2
          obtain ⟨h1, h2⟩ := hs k2 c hb2
          refine ⟨Nat.lt_succ_of_lt h1, ?_⟩
          intro hmem
          rcases List.mem_cons.mp hmem with rfl | hmem2
          · exact Nat.lt_irrefl _ h1
          · exact h2 hmem2
  | delete k =>
    refine ⟨hc, ?_⟩
    intro k2 b hb
    simp only [step] at hb
    by_cases hk : k2 = k
    · rw [if_pos hk] at hb
      cases hb
    · rw [if_neg hk] at hb
      exact hs k2 b hb
  | clear =>
    refine ⟨hc, ?_⟩
    intro k2 b hb
    cases hb

theorem cacheValue_step_passive {s : Sys} (h : Inv s) {op : Op}
    (hp : passive op) (k : Str) : cacheValue (step s op) k = cacheValue s k := by
  obtain ⟨hc, hs⟩ := h
  cases op with
  | set k2 a => cases hp
  | delete k2 => cases hp
  | clear => cases hp
  | mutate a v =>
    by_cases ha : a ∈ s.client
    · simp only [step, ha, if_true, cacheValue]
      cases hb : s.store k with
      | none => rfl
      | some b =>
        have hbb := hs k b hb
        have hba : b ≠ a := fun he => hbb.2 (he ▸ ha)
        simp [hba]
    · simp only [step, ha, if_false]
  | get k2 =>
    cases hsk : s.store k2 with
    | none => simp only [step, hsk]
    | some b =>
      cases hv : s.heap b with
      | none => simp only [step, hsk, hv]
      | some v =>
        simp only [step, hsk, hv, cacheValue]
        cases hb2 : s.store k with
        | none => rfl
        | some c =>
          have hcc := hs k c hb2
          have hcn : c ≠ s.next := Nat.ne_of_lt hcc.1
          simp [hcn]

theorem run_passive : ∀ (ops : List Op) (s : Sys), Inv s →
    (∀ op ∈ ops, passive op) → ∀ k,
    cacheValue (run s ops) k = cacheValue s k := by
  intro ops
  induction ops with
  | nil => intro s _ _ k; rfl
  | cons op ops ih =>
    intro s h hall k
    have h1 := inv_step h op
    have h2 := ih (step s op) h1 (fun o ho => hall o (List.mem_cons_of_mem _ ho)) k
    have h3 := cacheValue_step_passive ⟨h.1, h.2⟩ (hall op (List.mem_cons_self _ _)) k
    calc cacheValue (run s (op :: ops)) k
        = cacheValue (run (step s op) ops) k := rfl
      _ = cacheValue (step s op) k := h2
      _ = cacheValue s k := h3

end CI

/-- C10: in the explicit-heap model of `CacheService` with `useClones: true`,
the cache's private addresses stay disjoint from everything the client can
reach (the invariant is preserved by every API event), and any sequence of
client mutations and reads leaves the value a later `get` for any key would
observe unchanged: a cached result can only change through `set`, `delete`
or `clear`. -/
theorem C10_cache_isolation (s : CI.Sys) :
    (∀ op : CI.Op, CI.Inv s → CI.Inv (CI.step s op))
    ∧ (∀ ops : List CI.Op, CI.Inv s → (∀ op ∈ ops, CI.passive op) →
        ∀ k, CI.cacheValue (CI.run s ops) k = CI.cacheValue s k) := by
  constructor
  · intro op h
    exact CI.inv_step h op
  · intro ops h hall k
    exact CI.run_passive ops s h hall k

/-- Witness for C10: in a system where the client holds address 0 and the
cache privately stores address 1, mutating the client's object leaves the
cached value for the key untouched. -/
theorem C10_cache_isolation_witness :
    CI.cacheValue (CI.run CI.exSys [CI.Op.mutate 0 CI.exObj2])
        ("whois:example.com".toList) =
      CI.cacheValue CI.exSys ("whois:example.com".toList) := by
  refine (C10_cache_isolation CI.exSys).2 [CI.Op.mutate 0 CI.exObj2] ⟨?_, ?_⟩ ?_ _
  · intro a ha
    simp only [CI.exSys] at ha ⊢
    rcases List.mem_singleton.mp ha with rfl
    decide
  · intro k b hb
    simp only [CI.exSys] at hb ⊢
    by_cases hk : k = ("whois:example.com".toList)
    · rw [if_pos hk] at hb
      obtain rfl : (1 : Nat) = b := Option.some_inj.mp hb
      exact ⟨by decide, by decide⟩
    · rw [if_neg hk] at hb
      cases hb
  · intro op ho
    rcases List.mem_singleton.mp ho with rfl
    trivial
